import Mathlib

/-!
Verification development for the reservation-confirmation core of an
OpenPBS-derived batch server (`src/server/req_rescq.c`) and the DIS
counted-string reader (`disrcs.c`).

The C code is shallowly embedded: reservation state is an explicit record,
the confirmation handler is a composition of stage functions mirroring the
source line ranges, external collaborators (set_nodes, gen_task_*,
eval_resvState, find_queuebyname, ...) are oracle inputs packaged in an
environment record, and machine side effects (set_resc_assigned INCR/DECR,
resv_purge, reply_text, change_enableORstart, resv_save_db) are recorded in
the state as events/flags.  Allocation failures of purely local scratch
buffers (strdup/malloc of log strings) are not modelled; every other
failure path of the source is.
-/

namespace Rescq

/-- Reservation state / substate codes (reservation.h).  The same integer
namespace is used by the source for both `ri_state` and `ri_substate`. -/
inductive RST
  | UNCONFIRMED
  | CONFIRMED
  | DEGRADED
  | IN_CONFLICT
  | BEING_ALTERED
  | RUNNING
  | FINISHED
  | DELETED
deriving DecidableEq, Repr

/-- A `set_resc_assigned` accounting call, the direction argument. -/
inductive Ev
  | INCR
  | DECR
deriving DecidableEq, Repr

/-- Terminal outcome of one `req_confirmresv` invocation. -/
inductive Outcome
  | rejected (code : Nat)
  | acked
deriving DecidableEq, Repr

/- Error codes: abstract distinct tokens mirroring the pbs_error.h names;
the concrete numeric values are immaterial, only distinctness is used. -/

def PBSE_NONE : Nat := 0

def PBSE_PERM : Nat := 1

def PBSE_UNKRESVID : Nat := 2

def PBSE_resvFail : Nat := 3

def PBSE_SYSTEM : Nat := 4

def PBSE_INTERNAL : Nat := 5

def PBSE_BADATVAL : Nat := 6

def PBSE_BADTSPEC : Nat := 7

def PBSE_BADNODESPEC : Nat := 8

end Rescq

namespace Dis

/-!
Shallow embedding of `disrcs.c`.  The DIS collaborators `disrsi_` and
`dis_gets` are external to the file; their observable outputs are inputs of
the embedded function: `locret0` is the status returned by `disrsi_`,
`negate`/`count` are the sign flag and magnitude it stored, and
`streamData` is the data `dis_gets` can still deliver (a short read occurs
exactly when fewer than `count` characters are available).  A successful
`malloc` is the `mallocOk` input.  The C local `count` is initialised to 0
and only written by `disrsi_`, so the `count` parameter is the value it
holds after that call.
-/

/-- DIS status codes (dis.h), abstract distinct tokens. -/
inductive DisCode
  | SUCCESS
  | BADSIGN
  | NOMALLOC
  | PROTO
  | other (n : Nat)
deriving DecidableEq, Repr

/-- Result of `disrcs`: the returned buffer (`none` models a NULL return),
the value stored into `*nchars`, and the value stored into `*retval`. -/
structure DisResult where
  value : Option (List Char)
  nchars : Nat
  retval : DisCode
deriving DecidableEq, Repr

/-- `disrcs` (disrcs.c lines 88-124).  Note the inner `if (negate)` branch
of the source is dead (line 100 already folded the sign into `locret`), so
it does not appear.  On the PROTO path the allocated buffer is non-NULL,
hence the cleanup resets `count` to 0 and frees it; on the BADSIGN and
NOMALLOC paths `value` is NULL so the cleanup is skipped and `*nchars`
receives the unreset `count`. -/
def disrcs (locret0 : DisCode) (negate : Bool) (count : Nat)
    (mallocOk : Bool) (streamData : List Char) : DisResult :=
  let locret := if negate then DisCode.BADSIGN else locret0
  if locret = DisCode.SUCCESS then
    if mallocOk then
      if streamData.length < count then
        { value := none, nchars := 0, retval := DisCode.PROTO }
      else
        { value := some (streamData.take count ++ [Char.ofNat 0]),
          nchars := count, retval := DisCode.SUCCESS }
    else
      { value := none, nchars := count, retval := DisCode.NOMALLOC }
  else
    { value := none, nchars := count, retval := locret }

end Dis

namespace Rescq

/-!
Shallow embedding of `resv_idle_delete` (req_rescq.c lines 105-128).  The
reservation queue is modelled as the list of the states of its jobs:
`qu_numjobs` is the length and `qu_njstate s` the per-state counter, which
is how the server maintains those fields.  `svr_chk_history_conf()` is the
`hist` input.  The function requests a purge (`gen_future_deleteResv`) iff
the computed `num_jobs` is zero; the embedded function returns that
decision.
-/

/-- Job states relevant to the idle-delete counters (job.h). -/
inductive JobState
  | TRANSIT
  | QUEUED
  | HELD
  | WAITING
  | RUNNING
  | EXITING
  | EXPIRED
  | BEGUN
  | MOVED
  | FINISHED
deriving DecidableEq, Repr

def qu_numjobs (q : List JobState) : Nat := q.length

def qu_njstate (q : List JobState) (s : JobState) : Nat :=
  q.countP (fun j => decide (j = s))

/-- `resv_idle_delete` (lines 105-128): the purge decision.  `num_jobs` is
an `int` in the source, hence the computation over `Int`. -/
def resv_idle_delete (hist : Bool) (q : List JobState) : Bool :=
  let num_jobs : Int :=
    (qu_numjobs q : Int) -
      (if hist then
        ((qu_njstate q JobState.MOVED : Int) +
          (qu_njstate q JobState.FINISHED : Int) +
          (qu_njstate q JobState.EXPIRED : Int))
      else 0)
  num_jobs = 0

/-- A job state is terminal for history retention iff it is one of
MOVED, FINISHED, EXPIRED. -/
def isHistTerminal (s : JobState) : Bool :=
  decide (s = JobState.MOVED) || decide (s = JobState.FINISHED) ||
    decide (s = JobState.EXPIRED)

/-- The number of jobs the claim counts: all jobs, excluding the
history-terminal ones when history retention is enabled. -/
def nonTerminalCount (hist : Bool) (q : List JobState) : Nat :=
  if hist then q.countP (fun j => !isHistTerminal j) else q.length

/-!
Shallow embedding of `remove_node_from_resv` (req_rescq.c lines 256-355),
restricted to the reservation-side effects: the `RESV_ATR_resv_nodes`
string surgery, the `update_node_rassn(..., DECR)` accounting call, and the
`change_enableORstart(presv, Q_CHNG_START, ATR_FALSE)` queue action.  The
final traversal that unlinks the reservation from the node's resvinfo list
is mirrored by `degrade_scan` below.  Strings are embedded as `List Char`.

Fidelity note: the source builds the search pattern with
`snprintf(tmp_buf, strlen(nd_name) + 1, "%s:", nd_name)`, whose size
argument truncates the trailing ':', so the pattern actually searched for
is the bare node name.  The embedding reproduces that.
-/

/-- First index at which `pat` occurs as a contiguous sublist (strstr). -/
def findSubstrAux (pat : List Char) : List Char → Nat → Option Nat
  | [], i => if pat = [] then some i else none
  | c :: t, i =>
    if pat.isPrefixOf (c :: t) then some i else findSubstrAux pat t (i + 1)

def findSubstr (s pat : List Char) : Option Nat := findSubstrAux pat s 0

/-- `while (*begin != '(') begin--;` walk from index `i` back to the
nearest '(' at or before it (0 if none; well-formed specs always have
one). -/
def backToParen (s : List Char) : Nat → Nat
  | 0 => 0
  | b + 1 => if s.getD (b + 1) ' ' = '(' then b + 1 else backToParen s b

/-- `strchr(begin, ')')`: the first index `e ≥ b` holding ')'. -/
def fwdToParen (s : List Char) (b : Nat) : Option Nat :=
  (List.range s.length).find?
    (fun e => decide (b ≤ e) && decide (s.getD e ' ' = ')'))

/-- Replace the first "++" by "+" (lines 334-336). -/
def dropFirstPlusPlus : List Char → List Char
  | '+' :: '+' :: t => '+' :: t
  | c :: t => c :: dropFirstPlusPlus t
  | [] => []

/-- Lines 325-336: strip a possible leading '+', then a possible trailing
'+', then collapse the first "++". -/
def normalizePlus (l : List Char) : List Char :=
  let l1 := match l with
    | '+' :: t => t
    | x => x
  let l2 := if l1.getLast? = some '+' then l1.dropLast else l1
  dropFirstPlusPlus l2

structure RNResv where
  resvNodes : Option (List Char)
  giveback : Bool
deriving DecidableEq, Repr

/-- Observable outcome of `remove_node_from_resv` on the reservation:
the new node-spec attribute, the ranges passed to
`update_node_rassn(..., DECR)`, and the `change_enableORstart` call
(`some v` means it was called with started value `v`). -/
structure RNOut where
  resvNodes : Option (List Char)
  rassnDecr : List (List Char)
  queueStartAction : Option Bool
deriving DecidableEq, Repr

/-- `remove_node_from_resv` (lines 256-355).  The malloc-failure early
return and the node-side list unlink are outside this record.  A missing
')' after the matched '(' would make the C dereference past the string;
the embedding returns the input unchanged in that (well-formedness
violating) case. -/
def remove_node_from_resv (r : RNResv) (ndName : List Char) : RNOut :=
  match r.resvNodes with
  | none => { resvNodes := none, rassnDecr := [], queueStartAction := none }
  | some spec =>
    match findSubstr spec ndName with
    | none => { resvNodes := some spec, rassnDecr := [], queueStartAction := none }
    | some i =>
      let b := backToParen spec i
      match fwdToParen spec b with
      | none => { resvNodes := some spec, rassnDecr := [], queueStartAction := none }
      | some e =>
        let removed := (spec.drop b).take (e + 1 - b)
        let dec := if r.giveback then [removed] else []
        let rest := spec.take b ++ spec.drop (e + 1)
        if rest = [] then
          { resvNodes := none, rassnDecr := dec, queueStartAction := some false }
        else
          { resvNodes := some (normalizePlus rest), rassnDecr := dec,
            queueStartAction := none }

/-!
Shallow embedding of `degrade_overlapping_resv` (req_rescq.c lines
401-447), per node: the node's `nd_resvp` list of reservations is a
`List CResv`; the do/while(modified) loop finds the first conflicting
entry, applies `set_resv_retry`/`resv_setResvState`/`resv_save_db` to it,
removes it from the node list (the effect of `remove_host_from_resv` on
this node, for a consistent ledger) and restarts the scan.
-/

/-- Maintenance reservations are identified by the marker first character
of their ID (`PBS_MNTNC_RESV_ID_CHAR`). -/
def PBS_MNTNC_RESV_ID_CHAR : Char := 'M'

def is_mntnc_id (id : String) : Bool :=
  match id.data with
  | [] => false
  | c :: _ => decide (c = PBS_MNTNC_RESV_ID_CHAR)

/-- The reservation driving the scan (only the fields the scan reads). -/
structure MResv where
  resvID : String
  stime : Int
  etime : Int
deriving DecidableEq, Repr

/-- A candidate reservation on the node's resvinfo list. -/
structure CResv where
  resvID : String
  state : RST
  substate : RST
  stime : Int
  etime : Int
  retry : Option Int
  saved : Bool
deriving DecidableEq, Repr

/-- The conflict test of lines 417-425: skip maintenance reservations and
UNCONFIRMED ones, then conflict iff different ID and overlapping windows
(`p.stime <= r.etime && p.etime >= r.stime`). -/
def conflictsB (p : MResv) (r : CResv) : Bool :=
  if is_mntnc_id r.resvID then false
  else if r.state = RST.UNCONFIRMED then false
  else if p.resvID ≠ r.resvID ∧ p.stime ≤ r.etime ∧ p.etime ≥ r.stime then true
  else false

/-- Lines 427-437 applied to one conflicting reservation: retry timer to
now, DEGRADED/IN_CONFLICT if CONFIRMED else keep state with substate
IN_CONFLICT, and persist. -/
def processConflict (now : Int) (r : CResv) : CResv :=
  let r1 := { r with retry := some now }
  if r1.state = RST.CONFIRMED then
    { r1 with state := RST.DEGRADED, substate := RST.IN_CONFLICT, saved := true }
  else
    { r1 with substate := RST.IN_CONFLICT, saved := true }

/-- The inner `for` with its `break`: first conflicting entry and the list
with that entry removed. -/
def findFirstConflict (p : MResv) : List CResv → Option (CResv × List CResv)
  | [] => none
  | r :: t =>
    if conflictsB p r then some (r, t)
    else
      match findFirstConflict p t with
      | none => none
      | some (c, rest) => some (c, r :: rest)

/-- The do/while(modified) fixed-point loop, with fuel (each pass removes
one entry, so `l.length` fuel suffices).  Returns the remaining node list
and the processed (evicted) reservations in eviction order. -/
def degrade_scan_loop (p : MResv) (now : Int) :
    Nat → List CResv → List CResv × List CResv
  | 0, l => (l, [])
  | fuel + 1, l =>
    match findFirstConflict p l with
    | none => (l, [])
    | some (c, rest) =>
      let res := degrade_scan_loop p now fuel rest
      (res.1, processConflict now c :: res.2)

/-- `degrade_overlapping_resv` restricted to one node of the driving
reservation's node list. -/
def degrade_scan_node (p : MResv) (now : Int) (l : List CResv) :
    List CResv × List CResv :=
  degrade_scan_loop p now l.length l

/-!
Execution-vnode sequence codec.  Modelled from the spec:
`get_execvnodes_count` and `unroll_execvnode_seq` are server utility
functions not present under src/; per spec section 4.3 the input format is
`<N>#<occurrence-1>[<range-1>]<occurrence-2>[<range-2>]...`, `count`
parses the leading integer before '#' (error, reported as 0 by the
caller-visible convention of the source, when the separator is missing or
N is non-numeric), and `decode` splits the remainder into exactly N
segments by the bracketed range markers, failing when fewer are present.
-/

def takeDigits : List Char → List Char × List Char
  | [] => ([], [])
  | c :: t =>
    if c.isDigit then
      let r := takeDigits t
      (c :: r.1, r.2)
    else ([], c :: t)

def digitsToNatAux (acc : Nat) : List Char → Nat
  | [] => acc
  | c :: t => digitsToNatAux (acc * 10 + (c.toNat - 48)) t

/-- Modelled from the spec: the occurrence count is the leading integer
before '#'; 0 signals a parse error. -/
def get_execvnodes_count (s : String) : Nat :=
  let p := takeDigits s.data
  match p.1, p.2 with
  | [], _ => 0
  | _ :: _, '#' :: _ => digitsToNatAux 0 p.1
  | _ :: _, _ => 0

def dropToHash : List Char → List Char
  | [] => []
  | '#' :: t => t
  | _ :: t => dropToHash t

def dropBracket : List Char → List Char
  | [] => []
  | ']' :: t => t
  | _ :: t => dropBracket t

/-- One segment: the text before the next '[', and the rest after the
matching ']'. -/
def takeSeg : List Char → List Char × List Char
  | [] => ([], [])
  | '[' :: t => ([], dropBracket t)
  | c :: t =>
    let r := takeSeg t
    (c :: r.1, r.2)

def splitSegsF : Nat → List Char → List (List Char)
  | 0, _ => []
  | _, [] => []
  | n + 1, cs =>
    let r := takeSeg cs
    r.1 :: splitSegsF n r.2

def splitSegs (cs : List Char) : List (List Char) := splitSegsF cs.length cs

/-- Modelled from the spec: `unroll_execvnode_seq` decodes the condensed
string into the ordered per-occurrence strings; NULL (none) on any
failure. -/
def unroll_execvnode_seq (s : String) : Option (List String) :=
  let n := get_execvnodes_count s
  if n = 0 then none
  else
    let segs := splitSegs (dropToHash s.data)
    if segs.length < n then none
    else some ((segs.take n).map (fun l => String.mk l))

/-!
Shallow embedding of `req_confirmresv` (req_rescq.c lines 507-973).  The
handler is split into stage functions mirroring contiguous line ranges of
the source; each stage passes the state through unchanged once a terminal
outcome (`done`) has been produced, which models the early `return`s.
-/

/-- The `ri_alter.ra_flags` bit mask as a record of its four bits. -/
structure AlterFlags where
  forced : Bool
  selMod : Bool
  startMod : Bool
  endMod : Bool
deriving DecidableEq, Repr

/-- `ra_flags != 0`, the truth value the source binds to
`is_being_altered`. -/
def AlterFlags.isAny (f : AlterFlags) : Bool :=
  f.forced || f.selMod || f.startMod || f.endMod

/-- The saved pre-alter snapshot held in `ri_alter` (state, start,
duration; the pre-alter end is start + duration since the snapshot was
taken from a reservation satisfying the temporal invariant). -/
structure AlterSnap where
  raState : RST
  raStime : Int
  raDuration : Int
deriving DecidableEq, Repr

/-- The reservation fields `req_confirmresv` reads or writes. -/
structure Resv where
  resvID : String
  state : RST
  substate : RST
  stime : Int
  etime : Int
  duration : Int
  startSet : Bool
  giveback : Bool
  resvNodes : Option String
  standing : Bool
  resvCountAttr : Int
  resvIdxAttr : Int
  execvnodesAttr : Option String
  retry : Option Int
  vnodesDown : Nat
  repSched : Nat
  reqSched : Nat
  brp : Bool
  interactiveSet : Bool
  convertSet : Bool
  partitionAttr : Option String
  alterRevertSet : Bool
  schedSelectOrigSet : Bool
  ra : AlterFlags
  snap : AlterSnap
deriving DecidableEq, Repr

/-- The scheduler extension tag: `PBS_RESV_CONFIRM_FAIL`, a string with
the `PBS_RESV_CONFIRM_SUCCESS` prefix carrying an optional
":partition=" suffix, or any other tag. -/
inductive Ext
  | confirmFail
  | confirmSuccess (partition : Option String)
  | otherTag
deriving DecidableEq, Repr

/-- The batch request fields used (rq_perm privilege test outcome,
rq_extend, rq_resch, rq_destin).  The forced-alteration deny path mutates
extend/resch/destin in place, hence the request lives in the state. -/
structure Req where
  perm : Bool
  extend : Option Ext
  resch : Int
  destin : String
deriving DecidableEq, Repr

/-- External collaborators as oracles: the wall clock, `find_resv`
success, `chk_resvReq_viable`, `set_nodes` (via `assign_resv_resc`),
`gen_task_EndResvWindow` / `gen_task_Time4resv`, `eval_resvState`,
`find_queuebyname`, `create_resv_destination`, and the `cnvrt_qmove`
collaborators. -/
structure Env where
  now : Int
  found : Bool
  viable : Bool
  setNodes : String → Option String
  setNodesErr : Nat
  genTaskEndOk : Bool
  genTaskTime4 : Option Nat
  evalState : RST × RST
  queueFound : Bool
  createDestin : Option String
  cnvrtGenTaskOk : Bool
  jobFound : Bool
  allocBrOk : Bool
  moveOk : Bool

/-- The full machine state threaded through the stages: the reservation,
the (mutable) request, the terminal outcome, the `set_resc_assigned`
event trace, and recorded side effects.  `lDeg`, `lConf`, `lAlt` are the
local snapshots `is_degraded`, `is_confirmed`, `is_being_altered` taken at
entry (lines 538-540); `gbAtCharge` is a ghost recording of `ri_giveback`
at the line-780 charge decision; `reachedAssign`/`assignFailed` are ghost
markers for the line-778 call and the line-789 failure branch. -/
structure St where
  r : Resv
  req : Req
  done : Option Outcome
  events : List Ev
  purged : Bool
  clientReplied : Option String
  lDeg : Bool
  lConf : Bool
  lAlt : AlterFlags
  nextExecvnode : String
  partitionName : Option String
  assignRC : Nat
  reachedAssign : Bool
  assignFailed : Bool
  gbAtCharge : Option Bool
  queueStartStop : Bool
  queuePartition : Option String
  queueSaved : Bool
  resvSaved : Bool
  reverted : Bool
  acctRecorded : Bool
  ranDegradeOverlap : Bool

/-- `if (presv->ri_giveback == 0) { set_resc_assigned(..., INCR);
presv->ri_giveback = 1; }` -/
def chargeINCR (s : St) : St :=
  if s.r.giveback then s
  else { s with r := { s.r with giveback := true }, events := s.events ++ [Ev.INCR] }

/-- `if (presv->ri_giveback) { set_resc_assigned(..., DECR);
presv->ri_giveback = 0; }` -/
def chargeDECR (s : St) : St :=
  if s.r.giveback then
    { s with r := { s.r with giveback := false }, events := s.events ++ [Ev.DECR] }
  else s

def rejectSt (code : Nat) (s : St) : St :=
  { s with done := some (Outcome.rejected code) }

def ackSt (s : St) : St := { s with done := some Outcome.acked }

/-- Modelled from the spec: `revert_alter_reservation` is declared in
req_rescq.c (line 92) but defined in server code not under src/; per the
spec it restores the saved pre-alter attribute values (state, start time,
duration, with end the pre-alter start plus duration). -/
def revert_alter_reservation (r : Resv) : Resv :=
  { r with state := r.snap.raState, stime := r.snap.raStime,
           duration := r.snap.raDuration,
           etime := r.snap.raStime + r.snap.raDuration }

/-- Modelled from the spec: the short fixed retry delay used by the
fallback branch of `determine_resv_retry`. -/
def RESV_RETRY_DELAY : Int := 10

/-- Modelled from the spec: `determine_resv_retry` is server code not
under src/; per the spec it returns the midpoint between now and the
reservation's start time, falling back to a short fixed delay after the
soonest occurrence start when the midpoint is invalid or in the past. -/
def determine_resv_retry (now stime : Int) : Int :=
  let mid := now + (stime - now) / 2
  if now < mid then mid else stime + RESV_RETRY_DELAY

/-- Sentinel `PBS_RESV_FUTURE_SCH` for a start time left to the future
scheduler; abstract value, not load-bearing for any claim. -/
def PBS_RESV_FUTURE_SCH : Int := -1

def DEFAULT_PARTITION : String := "pbs-default"

/-- Lines 538-542: the entry snapshots `is_degraded`, `is_confirmed`,
`is_being_altered`, and the reply-counter increment. -/
def snapStep (s : St) : St :=
  { s with
    lDeg := decide (s.r.substate = RST.DEGRADED) ||
      decide (s.r.substate = RST.IN_CONFLICT),
    lConf := decide (s.r.substate = RST.CONFIRMED),
    lAlt := s.r.ra,
    r := { s.r with repSched := s.r.repSched + 1 } }

/-- Lines 528-548: privilege gate, reservation lookup, entry snapshots,
the scheduler reply counter increment, and the extension-tag presence
check. -/
def stageA (e : Env) (s : St) : St :=
  if s.done.isSome then s else
  if !s.req.perm then rejectSt PBSE_PERM s
  else if !e.found then rejectSt PBSE_UNKRESVID s
  else
    match s.req.extend with
    | none => rejectSt PBSE_resvFail (snapStep s)
    | some _ => snapStep s

/-- Lines 556-562: a degraded, non-altering reservation gets its retry
time recomputed and rescheduled. -/
def bRetry (e : Env) (s : St) : St :=
  if s.done.isSome then s else
  if s.lDeg && !s.lAlt.isAny then
    { s with r := { s.r with retry := some (determine_resv_retry e.now s.r.stime) } }
  else s

/-- Lines 563-575 (the else-arm conditions flattened into the guard): once
the scheduler reply quota is exhausted, a waiting interactive client of a
non-forced request is released with a DENIED reply and the pending handle
cleared. -/
def bDenied (_e : Env) (s : St) : St :=
  if s.done.isSome then s else
  if !(s.lDeg && !s.lAlt.isAny) && s.r.reqSched ≤ s.r.repSched &&
      s.r.brp && s.r.interactiveSet && !s.r.ra.forced then
    { s with r := { s.r with interactiveSet := false, brp := false },
             clientReplied := some (s.r.resvID ++ " DENIED") }
  else s

/-- Lines 576-582 (conditions flattened): a non-altering, non-confirmed
reservation is purged once the reply quota is exhausted. -/
def bPurge (_e : Env) (s : St) : St :=
  if s.done.isSome then s else
  if !(s.lDeg && !s.lAlt.isAny) && s.r.reqSched ≤ s.r.repSched &&
      !s.lAlt.isAny && !s.lConf then
    { s with purged := true }
  else s

/-- Lines 585-589: a non-forced in-flight alteration is reverted. -/
def bRevert (_e : Env) (s : St) : St :=
  if s.done.isSome then s else
  if s.r.state = RST.BEING_ALTERED && !s.r.ra.forced then
    { s with r := revert_alter_reservation s.r, reverted := true }
  else s

/-- Lines 593-594: drop the alter-revert snapshot attribute. -/
def bFree (_e : Env) (s : St) : St :=
  if s.done.isSome then s else
  if s.lAlt.isAny then { s with r := { s.r with alterRevertSet := false } } else s

/-- Lines 590-591: `force_requested` — a forced alteration whose reply
quota is exhausted (evaluated after `bRevert`, which is equivalent to the
source's evaluation point: when the revert ran, `forced` is false). -/
def bForceCond (s : St) : Bool :=
  decide (s.r.state = RST.BEING_ALTERED) && s.r.ra.forced &&
    decide (s.r.reqSched ≤ s.r.repSched)

/-- Lines 596-598: without a forced alteration the deny branch
acknowledges the scheduler and returns. -/
def bAck (_e : Env) (s : St) : St :=
  if s.done.isSome then s else
  if !bForceCond s then ackSt s else s

/-- Lines 603-609: the forced alteration clears its forced flag and
rewrites the request extension into a confirm-success one carrying the
reservation's partition. -/
def bForceExt (_e : Env) (s : St) : St :=
  if s.done.isSome then s else
  { s with r := { s.r with ra := { s.r.ra with forced := false } },
           req := { s.req with extend := some (Ext.confirmSuccess s.r.partitionAttr) } }

/-- Lines 610-612: copy the last known start time into the request. -/
def bForceStart (_e : Env) (s : St) : St :=
  if s.done.isSome then s else
  if s.r.startSet then { s with req := { s.req with resch := s.r.stime } } else s

/-- Lines 613-619: copy the last known node spec into the request
destination. -/
def bForceDestin (e : Env) (s : St) : St :=
  if s.done.isSome then s else
  if s.r.resvNodes.isSome then
    match e.createDestin with
    | none => rejectSt PBSE_SYSTEM s
    | some d => { s with req := { s.req with destin := d } }
  else s

/-- Lines 551-621: the deny (`PBS_RESV_CONFIRM_FAIL`) branch. -/
def stageB (e : Env) (s : St) : St :=
  if s.done.isSome then s else
  match s.req.extend with
  | some Ext.confirmFail =>
    bForceDestin e (bForceStart e (bForceExt e (bAck e (bFree e (bRevert e
      (bPurge e (bDenied e (bRetry e s))))))))
  | _ => s

/-- Lines 623-624: drop the alter-revert snapshot attribute. -/
def cFree (_e : Env) (s : St) : St :=
  if s.done.isSome then s else
  if s.lAlt.isAny then { s with r := { s.r with alterRevertSet := false } } else s

/-- Lines 627-633: apply a carried new start time, recomputing the end as
new start plus duration. -/
def cStart (_e : Env) (s : St) : St :=
  if s.done.isSome then s else
  if s.req.resch ≠ 0 then
    { s with r := { s.r with
        stime := s.req.resch, startSet := true,
        etime := s.req.resch + s.r.duration } }
  else s

/-- Lines 623-633. -/
def stageC (e : Env) (s : St) : St := cStart e (cFree e s)

/-- Lines 690-699: on first confirmation of a standing reservation with a
concrete start, arm the end-of-window task. -/
def dFirst (e : Env) (s : St) : St :=
  if s.done.isSome then s else
  if !s.lDeg && (if s.r.startSet then s.r.stime else 0) ≠ PBS_RESV_FUTURE_SCH &&
      !e.genTaskEndOk then
    rejectSt PBSE_SYSTEM s
  else s

/-- Lines 700-703: set the first occurrence index to 1. -/
def dIdx (_e : Env) (s : St) : St :=
  if s.done.isSome then s else
  if !s.lDeg then { s with r := { s.r with resvIdxAttr := 1 } } else s

/-- Lines 708-722: except mid-alteration, check the supplied occurrence
count against the occurrences remaining, then persist the full execvnode
sequence. -/
def dPersist (_e : Env) (s : St) : St :=
  if s.done.isSome then s else
  if !s.lAlt.isAny then
    if (get_execvnodes_count s.req.destin : Int) ≠
        s.r.resvCountAttr - s.r.resvIdxAttr + 1 then
      rejectSt PBSE_BADATVAL s
    else if 0 < s.r.resvCountAttr - s.r.resvIdxAttr + 1 then
      { s with r := { s.r with execvnodesAttr := some s.req.destin } }
    else s
  else s

/-- Lines 642-729: standing reservations parse the occurrence count,
unroll the execvnode sequence, take the soonest occurrence's execvnode,
and run the first-confirmation and sequence-persist steps; advance
reservations take the single destination directly. -/
def stageD (e : Env) (s : St) : St :=
  if s.done.isSome then s else
  if s.r.standing then
    if get_execvnodes_count s.req.destin = 0 then rejectSt PBSE_INTERNAL s
    else
      match unroll_execvnode_seq s.req.destin with
      | none => rejectSt PBSE_SYSTEM s
      | some [] => rejectSt PBSE_SYSTEM s
      | some (x :: _) =>
        dPersist e (dIdx e (dFirst e { s with nextExecvnode := x }))
  else
    { s with nextExecvnode := s.req.destin }

/-- Lines 732-736: viability re-check. -/
def stageE (e : Env) (s : St) : St :=
  if s.done.isSome then s else
  if !e.viable then rejectSt PBSE_BADTSPEC s else s

/-- Lines 742-747: a running degraded reservation gives back its charged
resources. -/
def fDecr (_e : Env) (s : St) : St :=
  if s.done.isSome then s else
  if s.lDeg && s.r.state = RST.RUNNING then chargeDECR s else s

/-- Lines 748-752: free the degraded reservation's nodes, reset retry
state and the down-vnode counter. -/
def fFree (_e : Env) (s : St) : St :=
  if s.done.isSome then s else
  if s.lDeg then
    { s with r := { s.r with resvNodes := none, retry := none, vnodesDown := 0 } }
  else s

/-- Lines 741-753: reconfirming a degraded reservation first gives back
charged resources if it is running, then frees its nodes and clears retry
state. -/
def stageF (e : Env) (s : St) : St := fFree e (fDecr e s)

/-- Lines 755-761: an alteration that modified the end time re-arms the
end-of-window task. -/
def stageG (e : Env) (s : St) : St :=
  if s.done.isSome then s else
  if s.lAlt.endMod && !e.genTaskEndOk then rejectSt PBSE_SYSTEM s else s

/-- Lines 768-774: an alteration that modified the selection of a started
reservation gives back its charged resources. -/
def hDecr (e : Env) (s : St) : St :=
  if s.done.isSome then s else
  if s.lAlt.isAny && s.lAlt.selMod && s.r.stime < e.now then chargeDECR s else s

/-- Line 776: an in-flight alteration frees the currently held nodes. -/
def hFree (_e : Env) (s : St) : St :=
  if s.done.isSome then s else
  if s.lAlt.isAny then { s with r := { s.r with resvNodes := none } } else s

/-- Lines 767-777. -/
def stageH (e : Env) (s : St) : St := hFree e (hDecr e s)

/-- `assign_resv_resc` (lines 468-487): empty node spec is rejected with
PBSE_BADNODESPEC; otherwise `set_nodes` either yields the canonical spec
recorded onto `RESV_ATR_resv_nodes`, or its error is propagated. -/
def assign_resv_resc (e : Env) (vnodes : String) (s : St) : Nat × St :=
  if vnodes = "" then (PBSE_BADNODESPEC, s)
  else
    match e.setNodes vnodes with
    | some nodeStr => (PBSE_NONE, { s with r := { s.r with resvNodes := some nodeStr } })
    | none => (e.setNodesErr, s)

/-- Line 778: the assignment call; its return code is stored for the
line-789 check. -/
def iAssign (e : Env) (s : St) : St :=
  if s.done.isSome then s else
  { (assign_resv_resc e s.nextExecvnode s).2 with
      assignRC := (assign_resv_resc e s.nextExecvnode s).1,
      reachedAssign := true }

/-- Lines 780-787: the charge block — `ri_stime < time_now` and
degraded-or-select-altered increments the assigned counters and sets
giveback.  `gbAtCharge` is the ghost record of `ri_giveback` at this
decision point. -/
def iCharge (e : Env) (s : St) : St :=
  if s.done.isSome then s else
  if s.r.stime < e.now && (s.lDeg || s.lAlt.selMod) then
    chargeINCR { s with gbAtCharge := some s.r.giveback }
  else { s with gbAtCharge := some s.r.giveback }

/-- Lines 789-793: only after the charge block is the assignment failure
checked and the request rejected with the propagated code. -/
def iCheck (_e : Env) (s : St) : St :=
  if s.done.isSome then s else
  if s.assignRC ≠ PBSE_NONE then
    { s with assignFailed := true, done := some (Outcome.rejected s.assignRC) }
  else s

/-- Lines 778-793, in source order: assign, charge, then the failure
check. -/
def stageI (e : Env) (s : St) : St := iCheck e (iCharge e (iAssign e s))

/-- Lines 800-805: arm the Time4resv start task unless reconfirming a
degraded reservation or altering without a start-time change. -/
def stageJ (e : Env) (s : St) : St :=
  if s.done.isSome then s else
  if !s.lDeg && (!s.lAlt.isAny || s.lAlt.startMod) then
    match e.genTaskTime4 with
    | some rc => rejectSt rc s
    | none => s
  else s

/-- Lines 812-830: recompute and apply state/substate; a confirm-success
extension extracts or defaults the partition name and clears the local
degraded flag. -/
def stageK (e : Env) (s : St) : St :=
  if s.done.isSome then s else
  let s1 := { s with r := { s.r with state := e.evalState.1, substate := e.evalState.2 } }
  match s1.req.extend with
  | some (Ext.confirmSuccess p) =>
    { s1 with partitionName := some (p.getD DEFAULT_PARTITION), lDeg := false }
  | _ => s1

/-- Lines 831-859: on confirmation into CONFIRMED with a partition name,
record the partition on the reservation and its backing queue, rejecting
when the queue cannot be found (note the reservation partition attribute
is set before that lookup). -/
def lQueue (e : Env) (s : St) : St :=
  if s.done.isSome then s else
  if s.r.state = RST.CONFIRMED then
    match s.partitionName with
    | some pn =>
      if !e.queueFound then
        rejectSt PBSE_INTERNAL { s with r := { s.r with partitionAttr := some pn } }
      else
        { s with r := { s.r with partitionAttr := some pn },
                 queuePartition := some pn, queueSaved := true }
    | none => s
  else s

/-- Line 861: persist the reservation. -/
def lSave (_e : Env) (s : St) : St :=
  if s.done.isSome then s else { s with resvSaved := true }

/-- Lines 831-861. -/
def stageL (e : Env) (s : St) : St := lSave e (lQueue e s)

/-- `cnvrt_qmove` (lines 176-218): returns (success, whether it purged the
reservation on its failure paths). -/
def cnvrt_qmove (e : Env) : Bool × Bool :=
  if !e.cnvrtGenTaskOk then (false, true)
  else if !e.jobFound then (false, true)
  else if !e.allocBrOk then (false, true)
  else (e.moveOk, false)

/-- Lines 869-884: reply CONFIRMED/FAILED to the waiting client (running
the queue-move conversion when requested) and clear the pending
handle. -/
def mReply (e : Env) (s : St) : St :=
  if s.done.isSome then s else
  if s.r.brp then
    if s.r.convertSet then
      { s with
        clientReplied := some (if (cnvrt_qmove e).1 then s.r.resvID ++ " CONFIRMED"
          else s.r.resvID ++ " FAILED"),
        purged := s.purged || (cnvrt_qmove e).2,
        r := { s.r with brp := false } }
    else
      { s with clientReplied := some (s.r.resvID ++ " CONFIRMED"),
               r := { s.r with brp := false } }
  else s

/-- Lines 886-887: the confirmation mail and the unconditional unset of
the interactive flag. -/
def mInter (_e : Env) (s : St) : St :=
  if s.done.isSome then s else
  { s with r := { s.r with interactiveSet := false } }

/-- Lines 869-887. -/
def stageM (e : Env) (s : St) : St := mInter e (mReply e s)

/-- Lines 901-907: an alteration that took a running reservation back to
CONFIRMED stops its queue and gives back its charged resources. -/
def nDecr (_e : Env) (s : St) : St :=
  if s.done.isSome then s else
  if s.lAlt.isAny && s.r.state = RST.CONFIRMED && s.r.snap.raState = RST.RUNNING then
    chargeDECR { s with queueStartStop := true }
  else s

/-- Lines 908-909: drop the saved original select when the selection
changed. -/
def nSelect (_e : Env) (s : St) : St :=
  if s.done.isSome then s else
  if s.lAlt.isAny && s.r.ra.selMod then
    { s with r := { s.r with schedSelectOrigSet := false } }
  else s

/-- Line 911: clear the alteration flags. -/
def nClear (_e : Env) (s : St) : St :=
  if s.done.isSome then s else
  if s.lAlt.isAny then { s with r := { s.r with ra := ⟨false, false, false, false⟩ } }
  else s

/-- Lines 889-918. -/
def stageN (e : Env) (s : St) : St := nClear e (nSelect e (nDecr e s))

/-- Lines 920-964: the accounting/hook record for non-degraded paths. -/
def stageO (_e : Env) (s : St) : St :=
  if s.done.isSome then s else
  if !s.lDeg then { s with acctRecorded := true } else s

/-- Lines 966-971: maintenance reservations trigger the overlap scan, then
the scheduler request is acknowledged. -/
def stageP (_e : Env) (s : St) : St :=
  if s.done.isSome then s else
  let s1 := if is_mntnc_id s.r.resvID then { s with ranDegradeOverlap := true } else s
  ackSt s1

def initSt (r : Resv) (q : Req) : St :=
  { r := r, req := q, done := none, events := [], purged := false,
    clientReplied := none, lDeg := false, lConf := false,
    lAlt := ⟨false, false, false, false⟩, nextExecvnode := "",
    partitionName := none, assignRC := 0, reachedAssign := false,
    assignFailed := false, gbAtCharge := none, queueStartStop := false,
    queuePartition := none, queueSaved := false, resvSaved := false,
    reverted := false, acctRecorded := false, ranDegradeOverlap := false }

/-- `req_confirmresv` (lines 507-973) as the composition of its stages. -/
def req_confirmresv (e : Env) (r : Resv) (q : Req) : St :=
  stageP e (stageO e (stageN e (stageM e (stageL e (stageK e (stageJ e
    (stageI e (stageH e (stageG e (stageF e (stageE e (stageD e
      (stageC e (stageB e (stageA e (initSt r q))))))))))))))))

/-- Strict alternation of an INCR/DECR event trace starting from charge
parity `b` (`b = true` means resources currently charged). -/
def altOk : Bool → List Ev → Bool
  | _, [] => true
  | b, Ev.INCR :: t => !b && altOk true t
  | b, Ev.DECR :: t => b && altOk false t

/-- The charge parity after a trace. -/
def gbAfter : Bool → List Ev → Bool
  | b, [] => b
  | _, Ev.INCR :: t => gbAfter true t
  | _, Ev.DECR :: t => gbAfter false t

/-- Trace/parity coherence: the event trace alternates from parity `b`
and the recorded giveback flag equals the parity after the trace. -/
def Coh (b : Bool) (s : St) : Prop :=
  altOk b s.events = true ∧ gbAfter b s.events = s.r.giveback

/-- The terminal outcome is a rejection. -/
def doneRejected (s : St) : Bool :=
  match s.done with
  | some (Outcome.rejected _) => true
  | _ => false

/-- The giveback/node-set coupling, required only of live reservations
that were not left by a rejected request: giveback implies a recorded
node set. -/
def NInv (s : St) : Prop :=
  s.purged = true ∨ doneRejected s = true ∨
    (s.r.giveback = true → s.r.resvNodes.isSome = true)

/-- Remaining occurrences as computed at line 710 (after the line-702
index reset applied on non-degraded confirmations). -/
def remainingOcc (deg : Bool) (r : Resv) : Int :=
  r.resvCountAttr - (if deg then r.resvIdxAttr else 1) + 1

/-!
Concrete instances used by the closed counterexample and witness
theorems.
-/

/-- A degraded, running advance reservation holding one node with
resources charged. -/
def rDegRun : Resv :=
  { resvID := "R1.srv", state := RST.RUNNING, substate := RST.DEGRADED,
    stime := 50, etime := 150, duration := 100, startSet := true,
    giveback := true, resvNodes := some "(vnA:ncpus=1)", standing := false,
    resvCountAttr := 0, resvIdxAttr := 0, execvnodesAttr := none,
    retry := none, vnodesDown := 2, repSched := 0, reqSched := 1,
    brp := false, interactiveSet := false, convertSet := false,
    partitionAttr := none, alterRevertSet := false,
    schedSelectOrigSet := false, ra := ⟨false, false, false, false⟩,
    snap := ⟨RST.UNCONFIRMED, 0, 0⟩ }

/-- A confirm-success request for one execvnode. -/
def qConf : Req :=
  { perm := true, extend := some (Ext.confirmSuccess none), resch := 0,
    destin := "(vnB:ncpus=1)" }

/-- An environment in which node placement fails. -/
def eAssignFail : Env :=
  { now := 100, found := true, viable := true, setNodes := fun _ => none,
    setNodesErr := 99, genTaskEndOk := true, genTaskTime4 := none,
    evalState := (RST.RUNNING, RST.RUNNING), queueFound := true,
    createDestin := none, cnvrtGenTaskOk := true, jobFound := true,
    allocBrOk := true, moveOk := true }

/-- The same environment with node placement succeeding (echoing the
requested spec as the canonical one). -/
def eAssignOk : Env := { eAssignFail with setNodes := fun x => some x }

/-- A degraded (not yet started) reservation at the `stime = now`
boundary. -/
def rDegBoundary : Resv :=
  { rDegRun with state := RST.CONFIRMED, substate := RST.DEGRADED,
                 stime := 100, etime := 200, giveback := false }

/-- A degraded non-altering reservation whose start is 1000 seconds
away. -/
def rDegFar : Resv :=
  { rDegRun with state := RST.CONFIRMED, substate := RST.DEGRADED,
                 stime := 1100, etime := 1200, giveback := false,
                 repSched := 0, reqSched := 2 }

/-- A deny request. -/
def qDeny : Req := { qConf with extend := some Ext.confirmFail }

/-- A standing reservation with three occurrences, not degraded, not
being altered. -/
def rStanding : Resv :=
  { rDegRun with state := RST.CONFIRMED, substate := RST.CONFIRMED,
                 standing := true, stime := 1000, etime := 1100,
                 giveback := false, resvCountAttr := 3, resvIdxAttr := 2,
                 execvnodesAttr := some "OLD", resvNodes := none }

/-- A confirmation supplying two occurrence assignments. -/
def qTwoOcc : Req := { qConf with destin := "2#(a:ncpus=1)[0](b:ncpus=1)[1]" }

/-- A confirmation supplying three occurrence assignments. -/
def qThreeOcc : Req :=
  { qConf with destin := "3#(a:ncpus=1)[0](b:ncpus=1)[1](c:ncpus=1)[2]" }

/-- A malformed request: no scheduler extension tag. -/
def qNoExt : Req := { qConf with extend := none }

/-- A confirmation carrying a new start time. -/
def qNewStart : Req := { qConf with resch := 500 }

/-- Stages J through P (lines 800-971). -/
def stagesJP (e : Env) (s : St) : St :=
  stageP e (stageO e (stageN e (stageM e (stageL e (stageK e (stageJ e s))))))

/-- Stages E through P (lines 732-971). -/
def stagesEP (e : Env) (s : St) : St :=
  stagesJP e (stageI e (stageH e (stageG e (stageF e (stageE e s)))))

/-- Stages C through P (lines 623-971). -/
def stagesCP (e : Env) (s : St) : St :=
  stagesEP e (stageD e (stageC e s))

/-- Stages B through P (lines 551-971). -/
def stagesBP (e : Env) (s : St) : St :=
  stagesCP e (stageB e s)

/-- The pipeline prefix up to the line-780 charge decision: stages A
through H.  `req_confirmresv` is definitionally stages J-P applied to
`stageI` applied to this state. -/
def chargePoint (e : Env) (r : Resv) (q : Req) : St :=
  stageH e (stageG e (stageF e (stageE e (stageD e (stageC e (stageB e
    (stageA e (initSt r q))))))))

end Rescq

namespace Dis

/-- Claim C10: `disrcs` error-path contract.  The source's own header
comment (lines 57-60) promises that on error the function returns NULL
and `*nchars` is 0; the code violates this on the DIS_BADSIGN path (a
negative length prefix): the cleanup at lines 117-121 only resets `count`
when a buffer had been allocated, so `*nchars` receives the parsed
magnitude.  This theorem evaluates the embedded code at the failing input
(`disrsi_` succeeded with negate set and magnitude 5, six characters
available, malloc fine): the result is NULL with retval DIS_BADSIGN but
`*nchars = 5`, not 0. -/
theorem claim_C10 :
    disrcs DisCode.SUCCESS true 5 true "hello!".data =
      { value := none, nchars := 5, retval := DisCode.BADSIGN } ∧
    (5 : Nat) ≠ 0 ∧
    (∀ lr c m d, (disrcs lr true c m d).retval = DisCode.BADSIGN) ∧
    (∀ c m d, (disrcs DisCode.SUCCESS false c m d).retval = DisCode.SUCCESS →
      (disrcs DisCode.SUCCESS false c m d).value = some (d.take c ++ [Char.ofNat 0]) ∧
      (disrcs DisCode.SUCCESS false c m d).nchars = c) := by
  refine ⟨rfl, by decide, ?_, ?_⟩
  · intro lr c m d
    simp [disrcs]
  · intro c m d h
    by_cases hm : m
    · by_cases hl : d.length < c
      · simp [disrcs, hm, hl] at h
      · simp [disrcs, hm, hl]
    · simp [disrcs, hm] at h

end Dis

namespace Rescq

theorem countP_terminal_split (q : List JobState) :
    q.countP (fun j => !isHistTerminal j) +
      (qu_njstate q JobState.MOVED + qu_njstate q JobState.FINISHED +
        qu_njstate q JobState.EXPIRED) = q.length := by
  induction q with
  | nil => simp [qu_njstate]
  | cons h t ih =>
    cases h <;>
      simp [qu_njstate, isHistTerminal, List.countP_cons] at ih ⊢ <;> omega

/-- Claim C8: when the idle-delete timer fires, a purge is requested iff
the count of jobs in the reservation's queue in non-terminal states
(excluding MOVED/FINISHED/EXPIRED jobs exactly when history retention is
enabled) is zero; with one or more such jobs no purge is requested. -/
theorem claim_C8 (hist : Bool) (q : List JobState) :
    resv_idle_delete hist q = true ↔ nonTerminalCount hist q = 0 := by
  have h := countP_terminal_split q
  unfold resv_idle_delete nonTerminalCount qu_numjobs
  rw [decide_eq_true_eq]
  cases hist
  · simp only [Bool.false_eq_true, if_false]
    omega
  · simp only [if_true]
    omega

/-- Claim C2, counterexample to the claim as stated: removing the last
node "vn1" from the spec "(vn1:ncpus=2)" empties it; the attribute is
cleared, but the queue action issued is `change_enableORstart(presv,
Q_CHNG_START, ATR_FALSE)` — the queue is force-STOPPED (started := false),
not force-enabled as the claim asserts (the source comment says "so stop
the associated queue"). -/
theorem claim_C2_counterexample :
    (remove_node_from_resv ⟨some "(vn1:ncpus=2)".data, false⟩ "vn1".data).resvNodes
        = none ∧
    (remove_node_from_resv ⟨some "(vn1:ncpus=2)".data, false⟩ "vn1".data).queueStartAction
        = some false ∧
    (some false : Option Bool) ≠ some true := by
  refine ⟨by rfl, by rfl, by decide⟩

/-- Claim C2 (amended): for every reservation whose persisted node-spec
string becomes empty after `remove_node_from_resv` removes the last node,
the node-spec attribute is cleared and the reservation's queue is
force-stopped (started set to ATR_FALSE) so orphaned jobs cannot run
outside the now-empty node set. -/
theorem claim_C2 (r : RNResv) (nd spec : List Char) (i e : Nat)
    (h1 : r.resvNodes = some spec)
    (h2 : findSubstr spec nd = some i)
    (h3 : fwdToParen spec (backToParen spec i) = some e)
    (h4 : spec.take (backToParen spec i) ++ spec.drop (e + 1) = []) :
    (remove_node_from_resv r nd).resvNodes = none ∧
    (remove_node_from_resv r nd).queueStartAction = some false := by
  unfold remove_node_from_resv
  rw [h1]
  simp only [h2, h3, h4]
  simp

/-- Claim C2 witness: the amended statement applied to the concrete
one-node reservation. -/
theorem claim_C2_witness :
    (remove_node_from_resv ⟨some "(vn1:ncpus=2)".data, true⟩ "vn1".data).resvNodes
        = none ∧
    (remove_node_from_resv ⟨some "(vn1:ncpus=2)".data, true⟩ "vn1".data).queueStartAction
        = some false :=
  claim_C2 ⟨some "(vn1:ncpus=2)".data, true⟩ "vn1".data "(vn1:ncpus=2)".data 1 12
    rfl (by rfl) (by rfl) (by rfl)

theorem findFirstConflict_none_spec (p : MResv) :
    ∀ l, findFirstConflict p l = none → ∀ r ∈ l, conflictsB p r = false := by
  intro l
  induction l with
  | nil => intro _ r hr; cases hr
  | cons a t ih =>
    intro h r hr
    unfold findFirstConflict at h
    by_cases hc : conflictsB p a
    · simp [hc] at h
    · simp only [hc, if_false, Bool.false_eq_true] at h
      rcases List.mem_cons.mp hr with h' | hr
      · subst h'; simpa using hc
      · cases hff : findFirstConflict p t with
        | none => exact ih hff r hr
        | some pr => rw [hff] at h; cases h

theorem findFirstConflict_some_spec (p : MResv) :
    ∀ l c rest, findFirstConflict p l = some (c, rest) →
      conflictsB p c = true ∧ rest.length + 1 = l.length ∧
      l.filter (fun r => !conflictsB p r) = rest.filter (fun r => !conflictsB p r) ∧
      l.filter (fun r => conflictsB p r) = c :: rest.filter (fun r => conflictsB p r) := by
  intro l
  induction l with
  | nil => intro c rest h; cases h
  | cons a t ih =>
    intro c rest h
    unfold findFirstConflict at h
    by_cases hc : conflictsB p a
    · simp only [hc, if_true] at h
      injection h with h'
      injection h' with hc' hr'
      subst hc'; subst hr'
      refine ⟨hc, rfl, ?_, ?_⟩
      · simp [List.filter_cons, hc]
      · simp [List.filter_cons, hc]
    · simp only [hc, if_false, Bool.false_eq_true] at h
      cases hff : findFirstConflict p t with
      | none => rw [hff] at h; cases h
      | some pr =>
        rw [hff] at h
        injection h with h'
        injection h' with hc' hr'
        subst hc'
        obtain ⟨ih1, ih2, ih3, ih4⟩ := ih pr.1 pr.2 (by rw [hff])
        subst hr'
        refine ⟨ih1, by simp [← ih2], ?_, ?_⟩
        · simp [List.filter_cons, hc, ih3]
        · simp [List.filter_cons, hc, ih4]

theorem degrade_scan_loop_spec (p : MResv) (now : Int) :
    ∀ fuel l, l.length ≤ fuel →
      degrade_scan_loop p now fuel l =
        (l.filter (fun r => !conflictsB p r),
         (l.filter (fun r => conflictsB p r)).map (processConflict now)) := by
  intro fuel
  induction fuel with
  | zero =>
    intro l hl
    have : l = [] := List.length_eq_zero.mp (Nat.le_zero.mp hl)
    subst this
    rfl
  | succ n ih =>
    intro l hl
    unfold degrade_scan_loop
    cases hff : findFirstConflict p l with
    | none =>
      have hall := findFirstConflict_none_spec p l hff
      have h1 : l.filter (fun r => !conflictsB p r) = l := by
        apply List.filter_eq_self.mpr
        intro r hr; simp [hall r hr]
      have h2 : l.filter (fun r => conflictsB p r) = [] := by
        apply List.filter_eq_nil_iff.mpr
        intro r hr; simp [hall r hr]
      simp [h1, h2]
    | some pr =>
      obtain ⟨c, rest⟩ := pr
      obtain ⟨h1, h2, h3, h4⟩ := findFirstConflict_some_spec p l c rest (by rw [hff])
      have hlen : rest.length ≤ n := by omega
      dsimp only
      rw [ih rest hlen]
      simp [h3, h4]

/-- Claim C3: per node of the driving reservation, the fixed-point
eviction loop of `degrade_overlapping_resv` leaves on the node exactly the
non-conflicting reservations (unchanged, e.g. UNCONFIRMED ones) and
processes exactly the conflicting ones in order — each getting its retry
timer set to now, substate IN_CONFLICT with state DEGRADED iff it was
CONFIRMED (otherwise its state kept), persisted, and evicted from the
node; and the conflict test is exactly: not a maintenance reservation,
state not UNCONFIRMED, different ID, and overlapping windows. -/
theorem claim_C3 (p : MResv) (now : Int) (l : List CResv) :
    degrade_scan_node p now l =
      (l.filter (fun r => !conflictsB p r),
       (l.filter (fun r => conflictsB p r)).map (processConflict now)) ∧
    (∀ r : CResv, conflictsB p r = true ↔
      (is_mntnc_id r.resvID = false ∧ r.state ≠ RST.UNCONFIRMED ∧
        p.resvID ≠ r.resvID ∧ p.stime ≤ r.etime ∧ p.etime ≥ r.stime)) ∧
    (∀ r : CResv,
      (processConflict now r).retry = some now ∧
      (processConflict now r).substate = RST.IN_CONFLICT ∧
      (processConflict now r).saved = true ∧
      (processConflict now r).state =
        (if r.state = RST.CONFIRMED then RST.DEGRADED else r.state) ∧
      (processConflict now r).resvID = r.resvID) := by
  refine ⟨degrade_scan_loop_spec p now l.length l le_rfl, ?_, ?_⟩
  · intro r
    unfold conflictsB
    split
    · simp_all
    · split
      · simp_all
      · split <;> simp_all
  · intro r
    unfold processConflict
    split <;> simp_all

/-!
Frame lemmas for the micro-stages of `req_confirmresv`, and generic
transfer lemmas turning field equalities into invariant preservation.
-/

theorem coh_of_eq {b : Bool} {s t : St} (hev : t.events = s.events)
    (hgb : t.r.giveback = s.r.giveback) (h : Coh b s) : Coh b t := by
  unfold Coh at h ⊢
  rw [hev, hgb]
  exact h

theorem tinv_of_eq {s t : St} (h1 : t.r.stime = s.r.stime)
    (h2 : t.r.etime = s.r.etime) (h3 : t.r.duration = s.r.duration)
    (h : s.r.etime = s.r.stime + s.r.duration) :
    t.r.etime = t.r.stime + t.r.duration := by
  rw [h1, h2, h3]; exact h

theorem altOk_snoc_incr (b : Bool) (es : List Ev) (h1 : altOk b es = true)
    (h2 : gbAfter b es = false) : altOk b (es ++ [Ev.INCR]) = true := by
  induction es generalizing b with
  | nil => simp_all [altOk, gbAfter]
  | cons a t ih =>
    cases a <;> simp_all [altOk, gbAfter]

theorem altOk_snoc_decr (b : Bool) (es : List Ev) (h1 : altOk b es = true)
    (h2 : gbAfter b es = true) : altOk b (es ++ [Ev.DECR]) = true := by
  induction es generalizing b with
  | nil => simp_all [altOk, gbAfter]
  | cons a t ih =>
    cases a <;> simp_all [altOk, gbAfter]

theorem gbAfter_snoc (b : Bool) (es : List Ev) (x : Ev) :
    gbAfter b (es ++ [x]) = (match x with | Ev.INCR => true | Ev.DECR => false) := by
  induction es generalizing b with
  | nil => cases x <;> simp [gbAfter]
  | cons a t ih => cases a <;> simp [gbAfter, ih]

theorem chargeINCR_coh (b : Bool) (s : St) (h : Coh b s) :
    Coh b (chargeINCR s) := by
  unfold chargeINCR
  split
  · exact h
  · obtain ⟨h1, h2⟩ := h
    constructor
    · apply altOk_snoc_incr b s.events h1
      simp_all
    · simp [gbAfter_snoc]

theorem chargeDECR_coh (b : Bool) (s : St) (h : Coh b s) :
    Coh b (chargeDECR s) := by
  unfold chargeDECR
  split
  · obtain ⟨h1, h2⟩ := h
    constructor
    · apply altOk_snoc_decr b s.events h1
      simp_all
    · simp [gbAfter_snoc]
  · exact h

theorem chargeINCR_incr_notmem (s : St) :
    chargeINCR s = s ∨
      (chargeINCR s).events = s.events ++ [Ev.INCR] := by
  unfold chargeINCR
  split
  · exact Or.inl rfl
  · exact Or.inr rfl

theorem chargeDECR_incr_mem (s : St) :
    (Ev.INCR ∈ (chargeDECR s).events ↔ Ev.INCR ∈ s.events) := by
  unfold chargeDECR
  split <;> simp

theorem snapStep_facts (s : St) :
    (snapStep s).events = s.events ∧
    (snapStep s).r.giveback = s.r.giveback ∧
    (snapStep s).gbAtCharge = s.gbAtCharge ∧
    (snapStep s).r.stime = s.r.stime ∧
    (snapStep s).r.etime = s.r.etime ∧
    (snapStep s).r.duration = s.r.duration ∧
    (snapStep s).done = s.done ∧
    (snapStep s).purged = s.purged ∧
    (snapStep s).r.resvNodes = s.r.resvNodes ∧
    (snapStep s).r.execvnodesAttr = s.r.execvnodesAttr ∧
    (snapStep s).r.standing = s.r.standing ∧
    (snapStep s).req = s.req ∧
    (snapStep s).reachedAssign = s.reachedAssign ∧
    (snapStep s).r.repSched = s.r.repSched + 1 := by
  unfold snapStep
  simp

theorem stageA_done_id (e : Env) (s : St) (h : s.done.isSome) :
    stageA e s = s := by
  unfold stageA
  simp [h]

theorem stageA_facts (e : Env) (s : St) :
    (stageA e s).events = s.events ∧
    (stageA e s).r.giveback = s.r.giveback ∧
    (stageA e s).gbAtCharge = s.gbAtCharge ∧
    (stageA e s).r.stime = s.r.stime ∧
    (stageA e s).r.etime = s.r.etime ∧
    (stageA e s).r.duration = s.r.duration ∧
    (stageA e s).purged = s.purged ∧
    (stageA e s).r.resvNodes = s.r.resvNodes ∧
    (stageA e s).r.execvnodesAttr = s.r.execvnodesAttr ∧
    (stageA e s).req = s.req ∧
    (stageA e s).reachedAssign = s.reachedAssign ∧
    ((stageA e s).done = none → s.done = none) := by
  unfold stageA rejectSt
  split
  · simp
  · split
    · simp
    · split
      · simp
      · split <;> simp [snapStep]

theorem bRetry_facts (e : Env) (s : St) :
    (bRetry e s).events = s.events ∧
    (bRetry e s).r.giveback = s.r.giveback ∧
    (bRetry e s).gbAtCharge = s.gbAtCharge ∧
    (bRetry e s).lDeg = s.lDeg ∧
    (bRetry e s).lAlt = s.lAlt ∧
    (bRetry e s).r.stime = s.r.stime ∧
    (bRetry e s).r.etime = s.r.etime ∧
    (bRetry e s).r.duration = s.r.duration ∧
    (bRetry e s).r.repSched = s.r.repSched ∧
    (bRetry e s).done = s.done ∧
    (bRetry e s).purged = s.purged ∧
    (bRetry e s).r.resvNodes = s.r.resvNodes := by
  unfold bRetry
  split
  · simp
  · split <;> simp

theorem bDenied_facts (e : Env) (s : St) :
    (bDenied e s).events = s.events ∧
    (bDenied e s).r.giveback = s.r.giveback ∧
    (bDenied e s).gbAtCharge = s.gbAtCharge ∧
    (bDenied e s).lDeg = s.lDeg ∧
    (bDenied e s).lAlt = s.lAlt ∧
    (bDenied e s).r.stime = s.r.stime ∧
    (bDenied e s).r.etime = s.r.etime ∧
    (bDenied e s).r.duration = s.r.duration ∧
    (bDenied e s).r.repSched = s.r.repSched ∧
    (bDenied e s).done = s.done ∧
    (bDenied e s).purged = s.purged ∧
    (bDenied e s).r.resvNodes = s.r.resvNodes := by
  unfold bDenied
  split
  · simp
  · split <;> simp

theorem bPurge_facts (e : Env) (s : St) :
    (bPurge e s).events = s.events ∧
    (bPurge e s).r.giveback = s.r.giveback ∧
    (bPurge e s).gbAtCharge = s.gbAtCharge ∧
    (bPurge e s).lDeg = s.lDeg ∧
    (bPurge e s).lAlt = s.lAlt ∧
    (bPurge e s).r.stime = s.r.stime ∧
    (bPurge e s).r.etime = s.r.etime ∧
    (bPurge e s).r.duration = s.r.duration ∧
    (bPurge e s).r.repSched = s.r.repSched ∧
    (bPurge e s).done = s.done ∧
    (bPurge e s).r.resvNodes = s.r.resvNodes := by
  unfold bPurge
  split
  · simp
  · split <;> simp

theorem bRevert_facts (e : Env) (s : St) :
    (bRevert e s).events = s.events ∧
    (bRevert e s).r.giveback = s.r.giveback ∧
    (bRevert e s).gbAtCharge = s.gbAtCharge ∧
    (bRevert e s).lDeg = s.lDeg ∧
    (bRevert e s).lAlt = s.lAlt ∧
    (bRevert e s).r.repSched = s.r.repSched ∧
    (bRevert e s).done = s.done ∧
    (bRevert e s).purged = s.purged ∧
    (bRevert e s).r.resvNodes = s.r.resvNodes := by
  unfold bRevert revert_alter_reservation
  split
  · simp
  · split <;> simp

theorem bRevert_tinv (e : Env) (s : St)
    (h : s.r.etime = s.r.stime + s.r.duration) :
    (bRevert e s).r.etime = (bRevert e s).r.stime + (bRevert e s).r.duration := by
  unfold bRevert revert_alter_reservation
  split
  · exact h
  · split <;> simp [h]

theorem bFree_facts (e : Env) (s : St) :
    (bFree e s).events = s.events ∧
    (bFree e s).r.giveback = s.r.giveback ∧
    (bFree e s).gbAtCharge = s.gbAtCharge ∧
    (bFree e s).lDeg = s.lDeg ∧
    (bFree e s).lAlt = s.lAlt ∧
    (bFree e s).r.stime = s.r.stime ∧
    (bFree e s).r.etime = s.r.etime ∧
    (bFree e s).r.duration = s.r.duration ∧
    (bFree e s).r.repSched = s.r.repSched ∧
    (bFree e s).done = s.done ∧
    (bFree e s).purged = s.purged ∧
    (bFree e s).r.resvNodes = s.r.resvNodes := by
  unfold bFree
  split
  · simp
  · split <;> simp

theorem bAck_facts (e : Env) (s : St) :
    (bAck e s).events = s.events ∧
    (bAck e s).r.giveback = s.r.giveback ∧
    (bAck e s).gbAtCharge = s.gbAtCharge ∧
    (bAck e s).lDeg = s.lDeg ∧
    (bAck e s).lAlt = s.lAlt ∧
    (bAck e s).r.stime = s.r.stime ∧
    (bAck e s).r.etime = s.r.etime ∧
    (bAck e s).r.duration = s.r.duration ∧
    (bAck e s).r.repSched = s.r.repSched ∧
    (bAck e s).purged = s.purged ∧
    (bAck e s).r.resvNodes = s.r.resvNodes ∧
    ((bAck e s).done = none → s.done = none) := by
  unfold bAck ackSt
  split
  · simp
  · split <;> simp

theorem bForceExt_facts (e : Env) (s : St) :
    (bForceExt e s).events = s.events ∧
    (bForceExt e s).r.giveback = s.r.giveback ∧
    (bForceExt e s).gbAtCharge = s.gbAtCharge ∧
    (bForceExt e s).lDeg = s.lDeg ∧
    (bForceExt e s).lAlt = s.lAlt ∧
    (bForceExt e s).r.stime = s.r.stime ∧
    (bForceExt e s).r.etime = s.r.etime ∧
    (bForceExt e s).r.duration = s.r.duration ∧
    (bForceExt e s).r.repSched = s.r.repSched ∧
    (bForceExt e s).done = s.done ∧
    (bForceExt e s).purged = s.purged ∧
    (bForceExt e s).r.resvNodes = s.r.resvNodes := by
  unfold bForceExt
  split <;> simp

theorem bForceStart_facts (e : Env) (s : St) :
    (bForceStart e s).events = s.events ∧
    (bForceStart e s).r.giveback = s.r.giveback ∧
    (bForceStart e s).gbAtCharge = s.gbAtCharge ∧
    (bForceStart e s).lDeg = s.lDeg ∧
    (bForceStart e s).lAlt = s.lAlt ∧
    (bForceStart e s).r.stime = s.r.stime ∧
    (bForceStart e s).r.etime = s.r.etime ∧
    (bForceStart e s).r.duration = s.r.duration ∧
    (bForceStart e s).r.repSched = s.r.repSched ∧
    (bForceStart e s).done = s.done ∧
    (bForceStart e s).purged = s.purged ∧
    (bForceStart e s).r.resvNodes = s.r.resvNodes := by
  unfold bForceStart
  split
  · simp
  · split <;> simp

theorem bForceDestin_facts (e : Env) (s : St) :
    (bForceDestin e s).events = s.events ∧
    (bForceDestin e s).r.giveback = s.r.giveback ∧
    (bForceDestin e s).gbAtCharge = s.gbAtCharge ∧
    (bForceDestin e s).lDeg = s.lDeg ∧
    (bForceDestin e s).lAlt = s.lAlt ∧
    (bForceDestin e s).r.stime = s.r.stime ∧
    (bForceDestin e s).r.etime = s.r.etime ∧
    (bForceDestin e s).r.duration = s.r.duration ∧
    (bForceDestin e s).r.repSched = s.r.repSched ∧
    (bForceDestin e s).purged = s.purged ∧
    (bForceDestin e s).r.resvNodes = s.r.resvNodes ∧
    ((bForceDestin e s).done = none → s.done = none) := by
  unfold bForceDestin rejectSt
  split
  · simp
  · split
    · split <;> simp
    · simp

theorem stageB_done_id (e : Env) (s : St) (h : s.done.isSome) :
    stageB e s = s := by
  unfold stageB
  simp [h]

/-- Bundle of per-stage preservation facts shared by every stage except
the entry stage (which bumps the reply counter and the local snapshots)
and the charge block (which emits INCR and records `gbAtCharge`): the
scheduler reply counter, the temporal invariant, trace/parity coherence,
INCR-event membership, the ghost charge record, and
produced-terminal-outcome inversion. -/
structure Pres (f : St → St) : Prop where
  rep : ∀ s, (f s).r.repSched = s.r.repSched
  tinv : ∀ s, s.r.etime = s.r.stime + s.r.duration →
    (f s).r.etime = (f s).r.stime + (f s).r.duration
  coh : ∀ b s, Coh b s → Coh b (f s)
  incr : ∀ s, Ev.INCR ∈ (f s).events ↔ Ev.INCR ∈ s.events
  gbc : ∀ s, (f s).gbAtCharge = s.gbAtCharge
  dinv : ∀ s, (f s).done = none → s.done = none

theorem Pres.comp {f g : St → St} (hf : Pres f) (hg : Pres g) :
    Pres (fun s => g (f s)) := by
  constructor
  · intro s; exact (hg.rep (f s)).trans (hf.rep s)
  · intro s h; exact hg.tinv (f s) (hf.tinv s h)
  · intro b s h; exact hg.coh b (f s) (hf.coh b s h)
  · intro s; exact (hg.incr (f s)).trans (hf.incr s)
  · intro s; exact (hg.gbc (f s)).trans (hf.gbc s)
  · intro s h; exact hf.dinv s (hg.dinv (f s) h)

theorem pres_id : Pres (fun s => s) := by
  constructor <;> intro s <;> simp

/-- A function satisfying the plain frame equalities satisfies `Pres`. -/
theorem pres_of_frame (f : St → St)
    (h : ∀ s,
      (f s).events = s.events ∧
      (f s).r.giveback = s.r.giveback ∧
      (f s).gbAtCharge = s.gbAtCharge ∧
      (f s).r.stime = s.r.stime ∧
      (f s).r.etime = s.r.etime ∧
      (f s).r.duration = s.r.duration ∧
      (f s).r.repSched = s.r.repSched ∧
      ((f s).done = none → s.done = none)) : Pres f := by
  constructor
  · intro s; exact (h s).2.2.2.2.2.2.1
  · intro s hh
    exact tinv_of_eq (h s).2.2.2.1 (h s).2.2.2.2.1 (h s).2.2.2.2.2.1 hh
  · intro b s hh; exact coh_of_eq (h s).1 (h s).2.1 hh
  · intro s; rw [(h s).1]
  · intro s; exact (h s).2.2.1
  · intro s; exact (h s).2.2.2.2.2.2.2

theorem bRetry_pres (e : Env) : Pres (bRetry e) := by
  apply pres_of_frame
  intro s
  unfold bRetry
  split
  · simp
  · split <;> simp

theorem bDenied_pres (e : Env) : Pres (bDenied e) := by
  apply pres_of_frame
  intro s
  unfold bDenied
  split
  · simp
  · split <;> simp

theorem bPurge_pres (e : Env) : Pres (bPurge e) := by
  apply pres_of_frame
  intro s
  unfold bPurge
  split
  · simp
  · split <;> simp

theorem bRevert_pres (e : Env) : Pres (bRevert e) := by
  constructor
  · intro s; exact (bRevert_facts e s).2.2.2.2.2.1
  · intro s h; exact bRevert_tinv e s h
  · intro b s h; exact coh_of_eq (bRevert_facts e s).1 (bRevert_facts e s).2.1 h
  · intro s; rw [(bRevert_facts e s).1]
  · intro s; exact (bRevert_facts e s).2.2.1
  · intro s h; rw [← (bRevert_facts e s).2.2.2.2.2.2.1]; exact h

theorem bFree_pres (e : Env) : Pres (bFree e) := by
  apply pres_of_frame
  intro s
  unfold bFree
  split
  · simp
  · split <;> simp

theorem bAck_pres (e : Env) : Pres (bAck e) := by
  apply pres_of_frame
  intro s
  unfold bAck ackSt
  split
  · simp
  · split <;> simp

theorem bForceExt_pres (e : Env) : Pres (bForceExt e) := by
  apply pres_of_frame
  intro s
  unfold bForceExt
  split <;> simp

theorem bForceStart_pres (e : Env) : Pres (bForceStart e) := by
  apply pres_of_frame
  intro s
  unfold bForceStart
  split
  · simp
  · split <;> simp

theorem bForceDestin_pres (e : Env) : Pres (bForceDestin e) := by
  apply pres_of_frame
  intro s
  unfold bForceDestin rejectSt
  split
  · simp
  · split
    · split <;> simp
    · simp

theorem stageB_pres (e : Env) : Pres (stageB e) := by
  have hc := ((((((((bRetry_pres e).comp (bDenied_pres e)).comp
    (bPurge_pres e)).comp (bRevert_pres e)).comp (bFree_pres e)).comp
    (bAck_pres e)).comp (bForceExt_pres e)).comp
    (bForceStart_pres e)).comp (bForceDestin_pres e)
  constructor
  · intro s
    unfold stageB
    split
    · rfl
    · split
      · exact hc.rep s
      · rfl
  · intro s h
    unfold stageB
    split
    · exact h
    · split
      · exact hc.tinv s h
      · exact h
  · intro b s h
    unfold stageB
    split
    · exact h
    · split
      · exact hc.coh b s h
      · exact h
  · intro s
    unfold stageB
    split
    · rfl
    · split
      · exact hc.incr s
      · rfl
  · intro s
    unfold stageB
    split
    · rfl
    · split
      · exact hc.gbc s
      · rfl
  · intro s
    unfold stageB
    split
    · exact fun h => h
    · split
      · exact hc.dinv s
      · exact fun h => h

theorem cFree_pres (e : Env) : Pres (cFree e) := by
  apply pres_of_frame
  intro s
  unfold cFree
  split
  · simp
  · split <;> simp

theorem cStart_pres (e : Env) : Pres (cStart e) := by
  constructor
  · intro s
    unfold cStart
    split
    · rfl
    · split <;> simp
  · intro s h
    unfold cStart
    split
    · exact h
    · split <;> simp [h]
  · intro b s h
    unfold cStart
    split
    · exact h
    · split
      · exact coh_of_eq (by simp) (by simp) h
      · exact h
  · intro s
    unfold cStart
    split
    · exact Iff.rfl
    · split <;> simp
  · intro s
    unfold cStart
    split
    · rfl
    · split <;> simp
  · intro s
    unfold cStart
    split
    · exact fun h => h
    · split <;> simp

theorem stageC_pres (e : Env) : Pres (stageC e) := by
  have h := (cFree_pres e).comp (cStart_pres e)
  unfold stageC
  exact h

theorem dFirst_pres (e : Env) : Pres (dFirst e) := by
  apply pres_of_frame
  intro s
  unfold dFirst rejectSt
  repeat' split
  all_goals simp

theorem dIdx_pres (e : Env) : Pres (dIdx e) := by
  apply pres_of_frame
  intro s
  unfold dIdx
  split
  · simp
  · split <;> simp

theorem dPersist_pres (e : Env) : Pres (dPersist e) := by
  apply pres_of_frame
  intro s
  unfold dPersist rejectSt
  split
  · simp
  · split
    · split
      · simp
      · split <;> simp
    · simp

theorem stageD_pres (e : Env) : Pres (stageD e) := by
  have hc := ((dFirst_pres e).comp (dIdx_pres e)).comp (dPersist_pres e)
  constructor
  · intro s
    unfold stageD rejectSt
    split
    · rfl
    · split
      · split
        · rfl
        · split
          · rfl
          · rfl
          · exact hc.rep _
      · rfl
  · intro s h
    unfold stageD rejectSt
    split
    · exact h
    · split
      · split
        · exact h
        · split
          · exact h
          · exact h
          · exact hc.tinv _ h
      · exact h
  · intro b s h
    unfold stageD rejectSt
    split
    · exact h
    · split
      · split
        · exact h
        · split
          · exact h
          · exact h
          · exact hc.coh b _ h
      · exact h
  · intro s
    unfold stageD rejectSt
    split
    · exact Iff.rfl
    · split
      · split
        · exact Iff.rfl
        · split
          · exact Iff.rfl
          · exact Iff.rfl
          · exact hc.incr _
      · exact Iff.rfl
  · intro s
    unfold stageD rejectSt
    split
    · rfl
    · split
      · split
        · rfl
        · split
          · rfl
          · rfl
          · exact hc.gbc _
      · rfl
  · intro s
    unfold stageD rejectSt
    split
    · exact fun h => h
    · split
      · split
        · simp
        · split
          · simp
          · simp
          · rename_i x xs hxs
            exact fun h => hc.dinv { s with nextExecvnode := x } h
      · exact fun h => h

theorem stageE_pres (e : Env) : Pres (stageE e) := by
  apply pres_of_frame
  intro s
  unfold stageE rejectSt
  split
  · simp
  · split <;> simp

theorem chargeDECR_facts (s : St) :
    (chargeDECR s).r.repSched = s.r.repSched ∧
    (chargeDECR s).r.stime = s.r.stime ∧
    (chargeDECR s).r.etime = s.r.etime ∧
    (chargeDECR s).r.duration = s.r.duration ∧
    (chargeDECR s).gbAtCharge = s.gbAtCharge ∧
    (chargeDECR s).done = s.done ∧
    (chargeDECR s).lDeg = s.lDeg ∧
    (chargeDECR s).lAlt = s.lAlt ∧
    (chargeDECR s).r.resvNodes = s.r.resvNodes ∧
    (chargeDECR s).purged = s.purged := by
  unfold chargeDECR
  split <;> simp

theorem fDecr_pres (e : Env) : Pres (fDecr e) := by
  constructor
  · intro s
    unfold fDecr
    split
    · rfl
    · split
      · exact (chargeDECR_facts s).1
      · rfl
  · intro s h
    unfold fDecr
    split
    · exact h
    · split
      · exact tinv_of_eq (chargeDECR_facts s).2.1 (chargeDECR_facts s).2.2.1
          (chargeDECR_facts s).2.2.2.1 h
      · exact h
  · intro b s h
    unfold fDecr
    split
    · exact h
    · split
      · exact chargeDECR_coh b s h
      · exact h
  · intro s
    unfold fDecr
    split
    · exact Iff.rfl
    · split
      · exact chargeDECR_incr_mem s
      · exact Iff.rfl
  · intro s
    unfold fDecr
    split
    · rfl
    · split
      · exact (chargeDECR_facts s).2.2.2.2.1
      · rfl
  · intro s
    unfold fDecr
    split
    · exact fun h => h
    · split
      · intro h; rw [← (chargeDECR_facts s).2.2.2.2.2.1]; exact h
      · exact fun h => h

theorem fFree_pres (e : Env) : Pres (fFree e) := by
  apply pres_of_frame
  intro s
  unfold fFree
  split
  · simp
  · split <;> simp

theorem stageF_pres (e : Env) : Pres (stageF e) := by
  have h := (fDecr_pres e).comp (fFree_pres e)
  unfold stageF
  exact h

theorem stageG_pres (e : Env) : Pres (stageG e) := by
  apply pres_of_frame
  intro s
  unfold stageG rejectSt
  split
  · simp
  · split <;> simp

theorem hDecr_pres (e : Env) : Pres (hDecr e) := by
  constructor
  · intro s
    unfold hDecr
    split
    · rfl
    · split
      · exact (chargeDECR_facts s).1
      · rfl
  · intro s h
    unfold hDecr
    split
    · exact h
    · split
      · exact tinv_of_eq (chargeDECR_facts s).2.1 (chargeDECR_facts s).2.2.1
          (chargeDECR_facts s).2.2.2.1 h
      · exact h
  · intro b s h
    unfold hDecr
    split
    · exact h
    · split
      · exact chargeDECR_coh b s h
      · exact h
  · intro s
    unfold hDecr
    split
    · exact Iff.rfl
    · split
      · exact chargeDECR_incr_mem s
      · exact Iff.rfl
  · intro s
    unfold hDecr
    split
    · rfl
    · split
      · exact (chargeDECR_facts s).2.2.2.2.1
      · rfl
  · intro s
    unfold hDecr
    split
    · exact fun h => h
    · split
      · intro h; rw [← (chargeDECR_facts s).2.2.2.2.2.1]; exact h
      · exact fun h => h

theorem hFree_pres (e : Env) : Pres (hFree e) := by
  apply pres_of_frame
  intro s
  unfold hFree
  split
  · simp
  · split <;> simp

theorem stageH_pres (e : Env) : Pres (stageH e) := by
  have h := (hDecr_pres e).comp (hFree_pres e)
  unfold stageH
  exact h

/-- The weaker bundle that the charge block also satisfies (it emits INCR
and writes `gbAtCharge`, so those two facts are dropped). -/
structure PresW (f : St → St) : Prop where
  rep : ∀ s, (f s).r.repSched = s.r.repSched
  tinv : ∀ s, s.r.etime = s.r.stime + s.r.duration →
    (f s).r.etime = (f s).r.stime + (f s).r.duration
  coh : ∀ b s, Coh b s → Coh b (f s)
  dinv : ∀ s, (f s).done = none → s.done = none

theorem Pres.toW {f : St → St} (h : Pres f) : PresW f :=
  ⟨h.rep, h.tinv, h.coh, h.dinv⟩

theorem PresW.wcomp {f g : St → St} (hf : PresW f) (hg : PresW g) :
    PresW (fun s => g (f s)) := by
  constructor
  · intro s; exact (hg.rep (f s)).trans (hf.rep s)
  · intro s h; exact hg.tinv (f s) (hf.tinv s h)
  · intro b s h; exact hg.coh b (f s) (hf.coh b s h)
  · intro s h; exact hf.dinv s (hg.dinv (f s) h)

theorem iAssign_pres (e : Env) : Pres (iAssign e) := by
  apply pres_of_frame
  intro s
  unfold iAssign assign_resv_resc
  repeat' split
  all_goals simp

theorem chargeINCR_facts (s : St) :
    (chargeINCR s).r.repSched = s.r.repSched ∧
    (chargeINCR s).r.stime = s.r.stime ∧
    (chargeINCR s).r.etime = s.r.etime ∧
    (chargeINCR s).r.duration = s.r.duration ∧
    (chargeINCR s).done = s.done ∧
    (chargeINCR s).lDeg = s.lDeg ∧
    (chargeINCR s).lAlt = s.lAlt ∧
    (chargeINCR s).gbAtCharge = s.gbAtCharge := by
  unfold chargeINCR
  split <;> simp

theorem iCharge_presW (e : Env) : PresW (iCharge e) := by
  constructor
  · intro s
    unfold iCharge
    split
    · rfl
    · split
      · exact (chargeINCR_facts _).1
      · rfl
  · intro s h
    unfold iCharge
    split
    · exact h
    · split
      · exact tinv_of_eq (chargeINCR_facts _).2.1 (chargeINCR_facts _).2.2.1
          (chargeINCR_facts _).2.2.2.1 h
      · exact h
  · intro b s h
    unfold iCharge
    split
    · exact h
    · split
      · exact chargeINCR_coh b _ h
      · exact h
  · intro s
    unfold iCharge
    split
    · exact fun h => h
    · split
      · intro h
        have h2 := (chargeINCR_facts
          { s with gbAtCharge := some s.r.giveback }).2.2.2.2.1
        rw [h2] at h
        exact h
      · exact fun h => h

theorem iCheck_pres (e : Env) : Pres (iCheck e) := by
  apply pres_of_frame
  intro s
  unfold iCheck
  split
  · simp
  · split <;> simp

theorem stageI_presW (e : Env) : PresW (stageI e) := by
  have h := (((iAssign_pres e).toW).wcomp (iCharge_presW e)).wcomp
    ((iCheck_pres e).toW)
  unfold stageI
  exact h

theorem stageJ_pres (e : Env) : Pres (stageJ e) := by
  apply pres_of_frame
  intro s
  unfold stageJ rejectSt
  repeat' split
  all_goals simp

theorem stageK_pres (e : Env) : Pres (stageK e) := by
  apply pres_of_frame
  intro s
  unfold stageK
  split
  · simp
  · cases hx : s.req.extend with
    | none => simp [hx]
    | some ext => cases ext <;> simp [hx]

theorem lQueue_pres (e : Env) : Pres (lQueue e) := by
  apply pres_of_frame
  intro s
  unfold lQueue rejectSt
  repeat' split
  all_goals simp

theorem lSave_pres (e : Env) : Pres (lSave e) := by
  apply pres_of_frame
  intro s
  unfold lSave
  split <;> simp

theorem stageL_pres (e : Env) : Pres (stageL e) := by
  have h := (lQueue_pres e).comp (lSave_pres e)
  unfold stageL
  exact h

theorem mReply_pres (e : Env) : Pres (mReply e) := by
  apply pres_of_frame
  intro s
  unfold mReply
  repeat' split
  all_goals simp

theorem mInter_pres (e : Env) : Pres (mInter e) := by
  apply pres_of_frame
  intro s
  unfold mInter
  split <;> simp

theorem stageM_pres (e : Env) : Pres (stageM e) := by
  have h := (mReply_pres e).comp (mInter_pres e)
  unfold stageM
  exact h

theorem nDecr_pres (e : Env) : Pres (nDecr e) := by
  constructor
  · intro s
    unfold nDecr
    split
    · rfl
    · split
      · exact (chargeDECR_facts _).1
      · rfl
  · intro s h
    unfold nDecr
    split
    · exact h
    · split
      · exact tinv_of_eq (chargeDECR_facts _).2.1 (chargeDECR_facts _).2.2.1
          (chargeDECR_facts _).2.2.2.1 h
      · exact h
  · intro b s h
    unfold nDecr
    split
    · exact h
    · split
      · exact chargeDECR_coh b _ h
      · exact h
  · intro s
    unfold nDecr
    split
    · exact Iff.rfl
    · split
      · exact chargeDECR_incr_mem _
      · exact Iff.rfl
  · intro s
    unfold nDecr
    split
    · rfl
    · split
      · exact (chargeDECR_facts _).2.2.2.2.1
      · rfl
  · intro s
    unfold nDecr
    split
    · exact fun h => h
    · split
      · intro h
        have h2 := (chargeDECR_facts { s with queueStartStop := true }).2.2.2.2.2.1
        rw [h2] at h
        exact h
      · exact fun h => h

theorem nSelect_pres (e : Env) : Pres (nSelect e) := by
  apply pres_of_frame
  intro s
  unfold nSelect
  split
  · simp
  · split <;> simp

theorem nClear_pres (e : Env) : Pres (nClear e) := by
  apply pres_of_frame
  intro s
  unfold nClear
  split
  · simp
  · split <;> simp

theorem stageN_pres (e : Env) : Pres (stageN e) := by
  have h := ((nDecr_pres e).comp (nSelect_pres e)).comp (nClear_pres e)
  unfold stageN
  exact h

theorem stageO_pres (e : Env) : Pres (stageO e) := by
  apply pres_of_frame
  intro s
  unfold stageO
  split
  · simp
  · split <;> simp

theorem stageP_pres (e : Env) : Pres (stageP e) := by
  apply pres_of_frame
  intro s
  unfold stageP ackSt
  repeat' split
  all_goals simp

theorem stagesJP_pres (e : Env) : Pres (stagesJP e) := by
  have h := (((((((stageJ_pres e).comp (stageK_pres e)).comp
    (stageL_pres e)).comp (stageM_pres e)).comp (stageN_pres e)).comp
    (stageO_pres e)).comp (stageP_pres e))
  unfold stagesJP
  exact h

theorem stagesEP_presW (e : Env) : PresW (stagesEP e) := by
  have h := (((((stageE_pres e).toW.wcomp ((stageF_pres e).toW)).wcomp
    ((stageG_pres e).toW)).wcomp ((stageH_pres e).toW)).wcomp
    (stageI_presW e)).wcomp ((stagesJP_pres e).toW)
  unfold stagesEP stagesJP
  unfold stagesJP at h
  exact h

theorem stagesCP_presW (e : Env) : PresW (stagesCP e) := by
  have h := ((stageC_pres e).toW.wcomp ((stageD_pres e).toW)).wcomp
    (stagesEP_presW e)
  unfold stagesCP stagesEP stagesJP
  unfold stagesEP stagesJP at h
  exact h

theorem stagesBP_presW (e : Env) : PresW (stagesBP e) := by
  have h := (stageB_pres e).toW.wcomp (stagesCP_presW e)
  unfold stagesBP stagesCP stagesEP stagesJP
  unfold stagesCP stagesEP stagesJP at h
  exact h

theorem req_confirmresv_eq (e : Env) (r : Resv) (q : Req) :
    req_confirmresv e r q = stagesBP e (stageA e (initSt r q)) := rfl

theorem cFree_done_id (e : Env) (s : St) (h : s.done.isSome) : cFree e s = s := by
  unfold cFree; simp [h]

theorem cStart_done_id (e : Env) (s : St) (h : s.done.isSome) : cStart e s = s := by
  unfold cStart; simp [h]

theorem stageC_done_id (e : Env) (s : St) (h : s.done.isSome) : stageC e s = s := by
  unfold stageC
  rw [cFree_done_id e s h, cStart_done_id e s h]

theorem stageD_done_id (e : Env) (s : St) (h : s.done.isSome) : stageD e s = s := by
  unfold stageD; simp [h]

theorem stageE_done_id (e : Env) (s : St) (h : s.done.isSome) : stageE e s = s := by
  unfold stageE; simp [h]

theorem fDecr_done_id (e : Env) (s : St) (h : s.done.isSome) : fDecr e s = s := by
  unfold fDecr; simp [h]

theorem fFree_done_id (e : Env) (s : St) (h : s.done.isSome) : fFree e s = s := by
  unfold fFree; simp [h]

theorem stageF_done_id (e : Env) (s : St) (h : s.done.isSome) : stageF e s = s := by
  unfold stageF
  rw [fDecr_done_id e s h, fFree_done_id e s h]

theorem stageG_done_id (e : Env) (s : St) (h : s.done.isSome) : stageG e s = s := by
  unfold stageG; simp [h]

theorem hDecr_done_id (e : Env) (s : St) (h : s.done.isSome) : hDecr e s = s := by
  unfold hDecr; simp [h]

theorem hFree_done_id (e : Env) (s : St) (h : s.done.isSome) : hFree e s = s := by
  unfold hFree; simp [h]

theorem stageH_done_id (e : Env) (s : St) (h : s.done.isSome) : stageH e s = s := by
  unfold stageH
  rw [hDecr_done_id e s h, hFree_done_id e s h]

theorem iAssign_done_id (e : Env) (s : St) (h : s.done.isSome) : iAssign e s = s := by
  unfold iAssign; simp [h]

theorem iCharge_done_id (e : Env) (s : St) (h : s.done.isSome) : iCharge e s = s := by
  unfold iCharge; simp [h]

theorem iCheck_done_id (e : Env) (s : St) (h : s.done.isSome) : iCheck e s = s := by
  unfold iCheck; simp [h]

theorem stageI_done_id (e : Env) (s : St) (h : s.done.isSome) : stageI e s = s := by
  unfold stageI
  rw [iAssign_done_id e s h, iCharge_done_id e s h, iCheck_done_id e s h]

theorem stageJ_done_id (e : Env) (s : St) (h : s.done.isSome) : stageJ e s = s := by
  unfold stageJ; simp [h]

theorem stageK_done_id (e : Env) (s : St) (h : s.done.isSome) : stageK e s = s := by
  unfold stageK; simp [h]

theorem lQueue_done_id (e : Env) (s : St) (h : s.done.isSome) : lQueue e s = s := by
  unfold lQueue; simp [h]

theorem lSave_done_id (e : Env) (s : St) (h : s.done.isSome) : lSave e s = s := by
  unfold lSave; simp [h]

theorem stageL_done_id (e : Env) (s : St) (h : s.done.isSome) : stageL e s = s := by
  unfold stageL
  rw [lQueue_done_id e s h, lSave_done_id e s h]

theorem mReply_done_id (e : Env) (s : St) (h : s.done.isSome) : mReply e s = s := by
  unfold mReply; simp [h]

theorem mInter_done_id (e : Env) (s : St) (h : s.done.isSome) : mInter e s = s := by
  unfold mInter; simp [h]

theorem stageM_done_id (e : Env) (s : St) (h : s.done.isSome) : stageM e s = s := by
  unfold stageM
  rw [mReply_done_id e s h, mInter_done_id e s h]

theorem nDecr_done_id (e : Env) (s : St) (h : s.done.isSome) : nDecr e s = s := by
  unfold nDecr; simp [h]

theorem nSelect_done_id (e : Env) (s : St) (h : s.done.isSome) : nSelect e s = s := by
  unfold nSelect; simp [h]

theorem nClear_done_id (e : Env) (s : St) (h : s.done.isSome) : nClear e s = s := by
  unfold nClear; simp [h]

theorem stageN_done_id (e : Env) (s : St) (h : s.done.isSome) : stageN e s = s := by
  unfold stageN
  rw [nDecr_done_id e s h, nSelect_done_id e s h, nClear_done_id e s h]

theorem stageO_done_id (e : Env) (s : St) (h : s.done.isSome) : stageO e s = s := by
  unfold stageO; simp [h]

theorem stageP_done_id (e : Env) (s : St) (h : s.done.isSome) : stageP e s = s := by
  unfold stageP; simp [h]

theorem stagesJP_done_id (e : Env) (s : St) (h : s.done.isSome) :
    stagesJP e s = s := by
  unfold stagesJP
  rw [stageJ_done_id e s h, stageK_done_id e s h, stageL_done_id e s h,
    stageM_done_id e s h, stageN_done_id e s h, stageO_done_id e s h,
    stageP_done_id e s h]

theorem stagesEP_done_id (e : Env) (s : St) (h : s.done.isSome) :
    stagesEP e s = s := by
  unfold stagesEP
  rw [stageE_done_id e s h, stageF_done_id e s h, stageG_done_id e s h,
    stageH_done_id e s h, stageI_done_id e s h, stagesJP_done_id e s h]

theorem stagesCP_done_id (e : Env) (s : St) (h : s.done.isSome) :
    stagesCP e s = s := by
  unfold stagesCP
  rw [stageC_done_id e s h, stageD_done_id e s h, stagesEP_done_id e s h]

theorem stagesBP_done_id (e : Env) (s : St) (h : s.done.isSome) :
    stagesBP e s = s := by
  unfold stagesBP
  rw [stageB_done_id e s h, stagesCP_done_id e s h]

theorem bForceExt_done_id (e : Env) (s : St) (h : s.done.isSome) :
    bForceExt e s = s := by
  unfold bForceExt; simp [h]

theorem bForceStart_done_id (e : Env) (s : St) (h : s.done.isSome) :
    bForceStart e s = s := by
  unfold bForceStart; simp [h]

theorem bForceDestin_done_id (e : Env) (s : St) (h : s.done.isSome) :
    bForceDestin e s = s := by
  unfold bForceDestin; simp [h]

/-- A non-deny extension skips the whole deny branch. -/
theorem stageB_skip (e : Env) (s : St) (ext : Ext)
    (hx : s.req.extend = some ext) (hne : ext ≠ Ext.confirmFail) :
    stageB e s = s := by
  unfold stageB
  split
  · rfl
  · rw [hx]
    cases ext
    · exact absurd rfl hne
    · rfl
    · rfl

theorem stageA_eval (e : Env) (r : Resv) (q : Req) (hp : q.perm = true)
    (hf : e.found = true) (hx : q.extend.isSome) :
    stageA e (initSt r q) = snapStep (initSt r q) := by
  unfold stageA initSt
  simp only [hp, hf]
  simp only [Option.isSome] at hx
  cases hq : q.extend with
  | none => rw [hq] at hx; cases hx
  | some ext => simp [hq]

theorem stageA_eval_noext (e : Env) (r : Resv) (q : Req) (hp : q.perm = true)
    (hf : e.found = true) (hx : q.extend = none) :
    stageA e (initSt r q) = rejectSt PBSE_resvFail (snapStep (initSt r q)) := by
  unfold stageA initSt
  simp [hp, hf, hx]

/-- Claim C9: for every confirmation request that resolves to an existing
reservation, `rep_sched_count` is incremented exactly once (line 542),
before the extension-tag check at line 545 — so even a request then
rejected as malformed for carrying no extension tag consumes one unit of
the scheduler reply quota. -/
theorem claim_C9 (e : Env) (r : Resv) (q : Req) (hp : q.perm = true)
    (hf : e.found = true) :
    (req_confirmresv e r q).r.repSched = r.repSched + 1 ∧
    (q.extend = none →
      (req_confirmresv e r q).done = some (Outcome.rejected PBSE_resvFail)) := by
  constructor
  · rw [req_confirmresv_eq, (stagesBP_presW e).rep]
    cases hq : q.extend with
    | none =>
      rw [stageA_eval_noext e r q hp hf hq]
      simp [rejectSt, snapStep, initSt]
    | some ext =>
      rw [stageA_eval e r q hp hf (by simp [hq])]
      simp [snapStep, initSt]
  · intro hx
    rw [req_confirmresv_eq, stageA_eval_noext e r q hp hf hx,
      stagesBP_done_id e _ (by simp [rejectSt])]
    simp [rejectSt]

/-- Claim C9 witness: a permitted request resolving to an existing
reservation but carrying no extension tag still bumps the reply counter
from 0 to 1 and is rejected with the reservation-failure code. -/
theorem claim_C9_witness :
    (req_confirmresv eAssignOk rDegRun qNoExt).r.repSched = rDegRun.repSched + 1 ∧
    (qNoExt.extend = none →
      (req_confirmresv eAssignOk rDegRun qNoExt).done =
        some (Outcome.rejected PBSE_resvFail)) :=
  claim_C9 eAssignOk rDegRun qNoExt rfl rfl

/-- Claim C7: the temporal invariant end = start + duration is preserved
by every `req_confirmresv` invocation (every state transition of the
confirmation machine), and the new-start update step (lines 627-633) sets
the start attribute and the recomputed end — new start plus duration —
together. -/
theorem claim_C7 (e : Env) (r : Resv) (q : Req)
    (h : r.etime = r.stime + r.duration) :
    ((req_confirmresv e r q).r.etime =
      (req_confirmresv e r q).r.stime + (req_confirmresv e r q).r.duration) ∧
    (∀ s : St, s.done = none → s.req.resch ≠ 0 →
      (stageC e s).r.stime = s.req.resch ∧
      (stageC e s).r.etime = s.req.resch + (stageC e s).r.duration) := by
  constructor
  · rw [req_confirmresv_eq]
    apply (stagesBP_presW e).tinv
    apply tinv_of_eq (stageA_facts e (initSt r q)).2.2.2.1
      (stageA_facts e (initSt r q)).2.2.2.2.1 (stageA_facts e (initSt r q)).2.2.2.2.2.1
    exact h
  · intro s hd hr
    unfold stageC cFree cStart
    simp only [hd]
    split
    · simp_all
    · split <;> simp_all

/-- Claim C7 witness: a confirmation of a coherent reservation carrying
new start 500 with duration 100 ends with end = start + duration, and the
update step applied to the initial state yields start 500, end 600. -/
theorem claim_C7_witness :
    ((req_confirmresv eAssignOk rDegRun qNewStart).r.etime =
      (req_confirmresv eAssignOk rDegRun qNewStart).r.stime +
        (req_confirmresv eAssignOk rDegRun qNewStart).r.duration) ∧
    (∀ s : St, s.done = none → s.req.resch ≠ 0 →
      (stageC eAssignOk s).r.stime = s.req.resch ∧
      (stageC eAssignOk s).r.etime = s.req.resch + (stageC eAssignOk s).r.duration) :=
  claim_C7 eAssignOk rDegRun qNewStart rfl

/-- Claim C6: a deny (confirm-fail) against a degraded reservation that is
not being altered recomputes its retry time via `determine_resv_retry`
(spec-modelled: the midpoint between now and the start, or the short fixed
delay after the soonest occurrence start when the midpoint is not in the
future) and reschedules the timer; the reservation's state and substate
are unchanged, it is not purged, no client reply is sent (in particular
none while replies received < requests sent), and the scheduler request is
acknowledged. -/
theorem claim_C6 (e : Env) (r : Resv) (q : Req)
    (hp : q.perm = true) (hf : e.found = true)
    (hx : q.extend = some Ext.confirmFail)
    (hdeg : r.substate = RST.DEGRADED ∨ r.substate = RST.IN_CONFLICT)
    (halt : r.ra = ⟨false, false, false, false⟩)
    (hba : r.state ≠ RST.BEING_ALTERED) :
    (req_confirmresv e r q).r.retry = some (determine_resv_retry e.now r.stime) ∧
    (req_confirmresv e r q).r.state = r.state ∧
    (req_confirmresv e r q).r.substate = r.substate ∧
    (req_confirmresv e r q).purged = false ∧
    (req_confirmresv e r q).clientReplied = none ∧
    (req_confirmresv e r q).done = some Outcome.acked := by
  have hxs : q.extend.isSome := by simp [hx]
  rw [req_confirmresv_eq, stageA_eval e r q hp hf hxs]
  have hsAd : (snapStep (initSt r q)).done = none := by simp [snapStep, initSt]
  have hlDeg : (snapStep (initSt r q)).lDeg = true := by
    rcases hdeg with h | h <;> simp [snapStep, initSt, h]
  have hlAlt : (snapStep (initSt r q)).lAlt = ⟨false, false, false, false⟩ := by
    simp [snapStep, initSt, halt]
  have hB : stageB e (snapStep (initSt r q)) =
      ackSt { snapStep (initSt r q) with
        r := { (snapStep (initSt r q)).r with
          retry := some (determine_resv_retry e.now r.stime) } } := by
    have h1 : bRetry e (snapStep (initSt r q)) =
        { snapStep (initSt r q) with
          r := { (snapStep (initSt r q)).r with
            retry := some (determine_resv_retry e.now r.stime) } } := by
      unfold bRetry
      rw [if_neg (by simp [hsAd]), if_pos (by rw [hlDeg, hlAlt]; decide)]
      rfl
    have hkeep : ∀ t : St, t.done = none → t.lDeg = true →
        t.lAlt = ⟨false, false, false, false⟩ → t.r.state = r.state →
        bAck e (bFree e (bRevert e (bPurge e (bDenied e t)))) = ackSt t := by
      intro t htd htdeg htalt hts
      have h2 : bDenied e t = t := by
        unfold bDenied
        rw [if_neg (by simp [htd]),
          if_neg (by rw [htdeg, htalt]; simp [AlterFlags.isAny])]
      have h3 : bPurge e t = t := by
        unfold bPurge
        rw [if_neg (by simp [htd]),
          if_neg (by rw [htdeg, htalt]; simp [AlterFlags.isAny])]
      have h4 : bRevert e t = t := by
        unfold bRevert
        rw [if_neg (by simp [htd]), if_neg (by rw [hts]; simp [hba])]
      have h5 : bFree e t = t := by
        unfold bFree
        rw [if_neg (by simp [htd]), if_neg (by rw [htalt]; decide)]
      have h6 : bAck e t = ackSt t := by
        unfold bAck bForceCond
        rw [if_neg (by simp [htd]), if_pos (by rw [hts]; simp [hba])]
      rw [h2, h3, h4, h5, h6]
    have hreq : (snapStep (initSt r q)).req.extend = some Ext.confirmFail := by
      simp [snapStep, initSt, hx]
    unfold stageB
    rw [if_neg (by simp [hsAd])]
    rw [hreq]
    dsimp only
    rw [h1]
    rw [hkeep _ (by simp [hsAd]) (by simp [hlDeg]) (by simp [hlAlt])
      (by simp [snapStep, initSt])]
    rw [bForceExt_done_id _ _ (by simp [ackSt]),
      bForceStart_done_id _ _ (by simp [ackSt]),
      bForceDestin_done_id _ _ (by simp [ackSt])]
  unfold stagesBP
  rw [hB, stagesCP_done_id _ _ (by simp [ackSt])]
  refine ⟨by simp [ackSt], by simp [ackSt, snapStep, initSt],
    by simp [ackSt, snapStep, initSt], by simp [ackSt, snapStep, initSt],
    by simp [ackSt, snapStep, initSt], by simp [ackSt]⟩

theorem stageE_post (e : Env) (s : St) :
    (stageE e s).r.stime = s.r.stime ∧
    (stageE e s).r.execvnodesAttr = s.r.execvnodesAttr := by
  unfold stageE rejectSt
  repeat' split
  all_goals simp

theorem fDecr_post (e : Env) (s : St) :
    (fDecr e s).r.stime = s.r.stime ∧
    (fDecr e s).r.execvnodesAttr = s.r.execvnodesAttr := by
  unfold fDecr chargeDECR
  repeat' split
  all_goals simp

theorem fFree_post (e : Env) (s : St) :
    (fFree e s).r.stime = s.r.stime ∧
    (fFree e s).r.execvnodesAttr = s.r.execvnodesAttr := by
  unfold fFree
  repeat' split
  all_goals simp

theorem stageF_post (e : Env) (s : St) :
    (stageF e s).r.stime = s.r.stime ∧
    (stageF e s).r.execvnodesAttr = s.r.execvnodesAttr := by
  unfold stageF
  exact ⟨((fFree_post e _).1).trans (fDecr_post e s).1,
    ((fFree_post e _).2).trans (fDecr_post e s).2⟩

theorem stageG_post (e : Env) (s : St) :
    (stageG e s).r.stime = s.r.stime ∧
    (stageG e s).r.execvnodesAttr = s.r.execvnodesAttr := by
  unfold stageG rejectSt
  repeat' split
  all_goals simp

theorem hDecr_post (e : Env) (s : St) :
    (hDecr e s).r.stime = s.r.stime ∧
    (hDecr e s).r.execvnodesAttr = s.r.execvnodesAttr := by
  unfold hDecr chargeDECR
  repeat' split
  all_goals simp

theorem hFree_post (e : Env) (s : St) :
    (hFree e s).r.stime = s.r.stime ∧
    (hFree e s).r.execvnodesAttr = s.r.execvnodesAttr := by
  unfold hFree
  repeat' split
  all_goals simp

theorem stageH_post (e : Env) (s : St) :
    (stageH e s).r.stime = s.r.stime ∧
    (stageH e s).r.execvnodesAttr = s.r.execvnodesAttr := by
  unfold stageH
  exact ⟨((hFree_post e _).1).trans (hDecr_post e s).1,
    ((hFree_post e _).2).trans (hDecr_post e s).2⟩

theorem iAssign_post (e : Env) (s : St) :
    (iAssign e s).r.stime = s.r.stime ∧
    (iAssign e s).r.execvnodesAttr = s.r.execvnodesAttr := by
  unfold iAssign assign_resv_resc
  repeat' split
  all_goals simp

theorem iCharge_post (e : Env) (s : St) :
    (iCharge e s).r.stime = s.r.stime ∧
    (iCharge e s).r.execvnodesAttr = s.r.execvnodesAttr := by
  unfold iCharge chargeINCR
  repeat' split
  all_goals simp

theorem iCheck_post (e : Env) (s : St) :
    (iCheck e s).r.stime = s.r.stime ∧
    (iCheck e s).r.execvnodesAttr = s.r.execvnodesAttr := by
  unfold iCheck
  repeat' split
  all_goals simp

theorem stageI_post (e : Env) (s : St) :
    (stageI e s).r.stime = s.r.stime ∧
    (stageI e s).r.execvnodesAttr = s.r.execvnodesAttr := by
  unfold stageI
  exact ⟨((iCheck_post e _).1).trans (((iCharge_post e _).1).trans
      (iAssign_post e s).1),
    ((iCheck_post e _).2).trans (((iCharge_post e _).2).trans
      (iAssign_post e s).2)⟩

theorem stageJ_post (e : Env) (s : St) :
    (stageJ e s).r.stime = s.r.stime ∧
    (stageJ e s).r.execvnodesAttr = s.r.execvnodesAttr := by
  unfold stageJ rejectSt
  repeat' split
  all_goals simp

theorem stageK_post (e : Env) (s : St) :
    (stageK e s).r.stime = s.r.stime ∧
    (stageK e s).r.execvnodesAttr = s.r.execvnodesAttr := by
  unfold stageK
  split
  · simp
  · cases hx : s.req.extend with
    | none => simp [hx]
    | some ext => cases ext <;> simp [hx]

theorem lQueue_post (e : Env) (s : St) :
    (lQueue e s).r.stime = s.r.stime ∧
    (lQueue e s).r.execvnodesAttr = s.r.execvnodesAttr := by
  unfold lQueue rejectSt
  repeat' split
  all_goals simp

theorem lSave_post (e : Env) (s : St) :
    (lSave e s).r.stime = s.r.stime ∧
    (lSave e s).r.execvnodesAttr = s.r.execvnodesAttr := by
  unfold lSave
  split <;> simp

theorem stageL_post (e : Env) (s : St) :
    (stageL e s).r.stime = s.r.stime ∧
    (stageL e s).r.execvnodesAttr = s.r.execvnodesAttr := by
  unfold stageL
  exact ⟨((lSave_post e _).1).trans (lQueue_post e s).1,
    ((lSave_post e _).2).trans (lQueue_post e s).2⟩

theorem mReply_post (e : Env) (s : St) :
    (mReply e s).r.stime = s.r.stime ∧
    (mReply e s).r.execvnodesAttr = s.r.execvnodesAttr := by
  unfold mReply
  repeat' split
  all_goals simp

theorem mInter_post (e : Env) (s : St) :
    (mInter e s).r.stime = s.r.stime ∧
    (mInter e s).r.execvnodesAttr = s.r.execvnodesAttr := by
  unfold mInter
  split <;> simp

theorem stageM_post (e : Env) (s : St) :
    (stageM e s).r.stime = s.r.stime ∧
    (stageM e s).r.execvnodesAttr = s.r.execvnodesAttr := by
  unfold stageM
  exact ⟨((mInter_post e _).1).trans (mReply_post e s).1,
    ((mInter_post e _).2).trans (mReply_post e s).2⟩

theorem nDecr_post (e : Env) (s : St) :
    (nDecr e s).r.stime = s.r.stime ∧
    (nDecr e s).r.execvnodesAttr = s.r.execvnodesAttr := by
  unfold nDecr chargeDECR
  repeat' split
  all_goals simp

theorem nSelect_post (e : Env) (s : St) :
    (nSelect e s).r.stime = s.r.stime ∧
    (nSelect e s).r.execvnodesAttr = s.r.execvnodesAttr := by
  unfold nSelect
  repeat' split
  all_goals simp

theorem nClear_post (e : Env) (s : St) :
    (nClear e s).r.stime = s.r.stime ∧
    (nClear e s).r.execvnodesAttr = s.r.execvnodesAttr := by
  unfold nClear
  repeat' split
  all_goals simp

theorem stageN_post (e : Env) (s : St) :
    (stageN e s).r.stime = s.r.stime ∧
    (stageN e s).r.execvnodesAttr = s.r.execvnodesAttr := by
  unfold stageN
  exact ⟨((nClear_post e _).1).trans (((nSelect_post e _).1).trans
      (nDecr_post e s).1),
    ((nClear_post e _).2).trans (((nSelect_post e _).2).trans
      (nDecr_post e s).2)⟩

theorem stageO_post (e : Env) (s : St) :
    (stageO e s).r.stime = s.r.stime ∧
    (stageO e s).r.execvnodesAttr = s.r.execvnodesAttr := by
  unfold stageO
  repeat' split
  all_goals simp

theorem stageP_post (e : Env) (s : St) :
    (stageP e s).r.stime = s.r.stime ∧
    (stageP e s).r.execvnodesAttr = s.r.execvnodesAttr := by
  unfold stageP ackSt
  repeat' split
  all_goals simp

theorem stagesJP_post (e : Env) (s : St) :
    (stagesJP e s).r.stime = s.r.stime ∧
    (stagesJP e s).r.execvnodesAttr = s.r.execvnodesAttr := by
  unfold stagesJP
  constructor
  · exact ((stageP_post e _).1).trans (((stageO_post e _).1).trans
      (((stageN_post e _).1).trans (((stageM_post e _).1).trans
      (((stageL_post e _).1).trans (((stageK_post e _).1).trans
      ((stageJ_post e s).1))))))
  · exact ((stageP_post e _).2).trans (((stageO_post e _).2).trans
      (((stageN_post e _).2).trans (((stageM_post e _).2).trans
      (((stageL_post e _).2).trans (((stageK_post e _).2).trans
      ((stageJ_post e s).2))))))

theorem stagesEP_post (e : Env) (s : St) :
    (stagesEP e s).r.stime = s.r.stime ∧
    (stagesEP e s).r.execvnodesAttr = s.r.execvnodesAttr := by
  unfold stagesEP
  constructor
  · exact ((stagesJP_post e _).1).trans (((stageI_post e _).1).trans
      (((stageH_post e _).1).trans (((stageG_post e _).1).trans
      (((stageF_post e _).1).trans ((stageE_post e s).1)))))
  · exact ((stagesJP_post e _).2).trans (((stageI_post e _).2).trans
      (((stageH_post e _).2).trans (((stageG_post e _).2).trans
      (((stageF_post e _).2).trans ((stageE_post e s).2)))))

theorem stageC_fields (e : Env) (s : St) :
    (stageC e s).done = s.done ∧
    (stageC e s).r.standing = s.r.standing ∧
    (stageC e s).req = s.req ∧
    (stageC e s).lAlt = s.lAlt ∧
    (stageC e s).lDeg = s.lDeg ∧
    (stageC e s).r.resvCountAttr = s.r.resvCountAttr ∧
    (stageC e s).r.resvIdxAttr = s.r.resvIdxAttr ∧
    (stageC e s).r.execvnodesAttr = s.r.execvnodesAttr ∧
    (stageC e s).r.resvNodes = s.r.resvNodes ∧
    (stageC e s).reachedAssign = s.reachedAssign := by
  unfold stageC cFree cStart
  repeat' split
  all_goals simp_all

theorem dIdx_fields (e : Env) (s : St) :
    (dIdx e s).done = s.done ∧
    (dIdx e s).lAlt = s.lAlt ∧
    (dIdx e s).lDeg = s.lDeg ∧
    (dIdx e s).req = s.req ∧
    (dIdx e s).r.resvCountAttr = s.r.resvCountAttr ∧
    (dIdx e s).r.execvnodesAttr = s.r.execvnodesAttr ∧
    (dIdx e s).r.resvNodes = s.r.resvNodes ∧
    (dIdx e s).reachedAssign = s.reachedAssign := by
  unfold dIdx
  repeat' split
  all_goals simp

theorem dIdx_idx (e : Env) (s : St) (hd : s.done = none) :
    (dIdx e s).r.resvIdxAttr = if s.lDeg then s.r.resvIdxAttr else 1 := by
  unfold dIdx
  rw [if_neg (by simp [hd])]
  cases hl : s.lDeg <;> simp [hl]

/-- The standing-reservation branch of stage D under the reachability
conditions of the count check: the supplied-count test happens before any
node assignment, with the request rejected (PBSE_BADATVAL) on mismatch and
the full sequence persisted on match. -/
theorem stageD_char (e : Env) (t : St) (x : String) (xs : List String)
    (htd : t.done = none) (htst : t.r.standing = true)
    (htalt : t.lAlt = ⟨false, false, false, false⟩)
    (hcnt : get_execvnodes_count t.req.destin ≠ 0)
    (hux : unroll_execvnode_seq t.req.destin = some (x :: xs))
    (hfc : t.lDeg = true ∨ e.genTaskEndOk = true) :
    ((get_execvnodes_count t.req.destin : Int) ≠
        t.r.resvCountAttr - (if t.lDeg then t.r.resvIdxAttr else 1) + 1 →
      stageD e t =
        rejectSt PBSE_BADATVAL (dIdx e { t with nextExecvnode := x })) ∧
    ((get_execvnodes_count t.req.destin : Int) =
        t.r.resvCountAttr - (if t.lDeg then t.r.resvIdxAttr else 1) + 1 →
      stageD e t = { dIdx e { t with nextExecvnode := x } with
        r := { (dIdx e { t with nextExecvnode := x }).r with
          execvnodesAttr := some t.req.destin } }) := by
  have hD : stageD e t =
      dPersist e (dIdx e (dFirst e { t with nextExecvnode := x })) := by
    unfold stageD
    rw [if_neg (by simp [htd]), if_pos htst, if_neg hcnt, hux]
  have hF : dFirst e { t with nextExecvnode := x } = { t with nextExecvnode := x } := by
    unfold dFirst
    rw [if_neg (by simp [htd])]
    rcases hfc with hdg | hgen
    · rw [if_neg (by simp [hdg])]
    · rw [if_neg (by simp [hgen])]
  have hfld := dIdx_fields e { t with nextExecvnode := x }
  have hidx := dIdx_idx e { t with nextExecvnode := x } (by simp [htd])
  have ht2d : (dIdx e { t with nextExecvnode := x }).done = none := by
    rw [hfld.1]; exact htd
  have ht2alt : (dIdx e { t with nextExecvnode := x }).lAlt =
      ⟨false, false, false, false⟩ := by
    rw [hfld.2.1]; exact htalt
  have ht2req : (dIdx e { t with nextExecvnode := x }).req = t.req := hfld.2.2.2.1
  have ht2cnt : (dIdx e { t with nextExecvnode := x }).r.resvCountAttr =
      t.r.resvCountAttr := hfld.2.2.2.2.1
  have ht2idx : (dIdx e { t with nextExecvnode := x }).r.resvIdxAttr =
      if t.lDeg then t.r.resvIdxAttr else 1 := hidx
  constructor
  · intro hmm
    rw [hD, hF]
    unfold dPersist
    rw [if_neg (by simp [ht2d]), if_pos (by rw [ht2alt]; decide),
      if_pos (by rw [ht2req, ht2cnt, ht2idx]; exact hmm)]
  · intro hq
    rw [hD, hF]
    unfold dPersist
    rw [if_neg (by simp [ht2d]), if_pos (by rw [ht2alt]; decide),
      if_neg (by rw [ht2req, ht2cnt, ht2idx]; simp [hq]),
      if_pos (by
        rw [ht2cnt, ht2idx]
        have h1 : 1 ≤ get_execvnodes_count t.req.destin := Nat.one_le_iff_ne_zero.mpr hcnt
        omega)]
    simp only [ht2req]

/-- Claim C5: on a standing-reservation confirmation that is not
mid-alteration, a mismatch between the number of per-occurrence
assignments supplied and the occurrences remaining (count - index + 1,
after the first-confirmation index reset) rejects the request with
PBSE_BADATVAL before the assignment engine is ever invoked, leaving the
execvnode-sequence attribute and the node set untouched; when the counts
match, the full occurrence sequence is persisted onto the reservation. -/
theorem claim_C5 (e : Env) (r : Resv) (q : Req) (ext : Ext)
    (hp : q.perm = true) (hf : e.found = true)
    (hx : q.extend = some ext) (hne : ext ≠ Ext.confirmFail)
    (hst : r.standing = true)
    (halt : r.ra = ⟨false, false, false, false⟩)
    (hcnt : get_execvnodes_count q.destin ≠ 0)
    (hun : ∃ x xs, unroll_execvnode_seq q.destin = some (x :: xs))
    (hfc : (r.substate = RST.DEGRADED ∨ r.substate = RST.IN_CONFLICT) ∨
      e.genTaskEndOk = true) :
    ((get_execvnodes_count q.destin : Int) ≠
        remainingOcc (decide (r.substate = RST.DEGRADED) ||
          decide (r.substate = RST.IN_CONFLICT)) r →
      (req_confirmresv e r q).done = some (Outcome.rejected PBSE_BADATVAL) ∧
      (req_confirmresv e r q).reachedAssign = false ∧
      (req_confirmresv e r q).r.execvnodesAttr = r.execvnodesAttr ∧
      (req_confirmresv e r q).r.resvNodes = r.resvNodes) ∧
    ((get_execvnodes_count q.destin : Int) =
        remainingOcc (decide (r.substate = RST.DEGRADED) ||
          decide (r.substate = RST.IN_CONFLICT)) r →
      (req_confirmresv e r q).r.execvnodesAttr = some q.destin) := by
  obtain ⟨x, xs, hux⟩ := hun
  have hxs : q.extend.isSome := by simp [hx]
  rw [req_confirmresv_eq, stageA_eval e r q hp hf hxs]
  unfold stagesBP
  rw [stageB_skip e _ ext (by simp [snapStep, initSt, hx]) hne]
  unfold stagesCP
  have hC := stageC_fields e (snapStep (initSt r q))
  have hCd : (stageC e (snapStep (initSt r q))).done = none := by
    rw [hC.1]; simp [snapStep, initSt]
  have hCst : (stageC e (snapStep (initSt r q))).r.standing = true := by
    rw [hC.2.1]; simpa [snapStep, initSt] using hst
  have hCreq : (stageC e (snapStep (initSt r q))).req = q := by
    rw [hC.2.2.1]; simp [snapStep, initSt]
  have hCalt : (stageC e (snapStep (initSt r q))).lAlt =
      ⟨false, false, false, false⟩ := by
    rw [hC.2.2.2.1]; simpa [snapStep, initSt] using halt
  have hCdeg : (stageC e (snapStep (initSt r q))).lDeg =
      (decide (r.substate = RST.DEGRADED) ||
        decide (r.substate = RST.IN_CONFLICT)) := by
    rw [hC.2.2.2.2.1]; simp [snapStep, initSt]
  have hCcnt : (stageC e (snapStep (initSt r q))).r.resvCountAttr =
      r.resvCountAttr := by
    rw [hC.2.2.2.2.2.1]; simp [snapStep, initSt]
  have hCidx : (stageC e (snapStep (initSt r q))).r.resvIdxAttr =
      r.resvIdxAttr := by
    rw [hC.2.2.2.2.2.2.1]; simp [snapStep, initSt]
  have hCex : (stageC e (snapStep (initSt r q))).r.execvnodesAttr =
      r.execvnodesAttr := by
    rw [hC.2.2.2.2.2.2.2.1]; simp [snapStep, initSt]
  have hCnd : (stageC e (snapStep (initSt r q))).r.resvNodes = r.resvNodes := by
    rw [hC.2.2.2.2.2.2.2.2.1]; simp [snapStep, initSt]
  have hCra : (stageC e (snapStep (initSt r q))).reachedAssign = false := by
    rw [hC.2.2.2.2.2.2.2.2.2]; simp [snapStep, initSt]
  have hDch := stageD_char e (stageC e (snapStep (initSt r q))) x xs hCd hCst
    hCalt (by rw [hCreq]; exact hcnt) (by rw [hCreq]; exact hux)
    (by
      rcases hfc with hdg | hgen
      · left
        rw [hCdeg]
        rcases hdg with h | h <;> simp [h]
      · right; exact hgen)
  have hfld := dIdx_fields e
    { stageC e (snapStep (initSt r q)) with nextExecvnode := x }
  constructor
  · intro hmm
    have hD := hDch.1 (by
      rw [hCreq, hCcnt, hCidx, hCdeg]
      rw [remainingOcc] at hmm
      exact hmm)
    rw [hD, stagesEP_done_id e _ (by simp [rejectSt])]
    refine ⟨by simp [rejectSt], ?_, ?_, ?_⟩
    · show (rejectSt PBSE_BADATVAL _).reachedAssign = false
      rw [show (rejectSt PBSE_BADATVAL (dIdx e
        { stageC e (snapStep (initSt r q)) with nextExecvnode := x })).reachedAssign
          = (dIdx e { stageC e (snapStep (initSt r q)) with
            nextExecvnode := x }).reachedAssign from rfl]
      rw [hfld.2.2.2.2.2.2.2]
      exact hCra
    · rw [show (rejectSt PBSE_BADATVAL (dIdx e
        { stageC e (snapStep (initSt r q)) with nextExecvnode := x })).r.execvnodesAttr
          = (dIdx e { stageC e (snapStep (initSt r q)) with
            nextExecvnode := x }).r.execvnodesAttr from rfl]
      rw [hfld.2.2.2.2.2.1]
      exact hCex
    · rw [show (rejectSt PBSE_BADATVAL (dIdx e
        { stageC e (snapStep (initSt r q)) with nextExecvnode := x })).r.resvNodes
          = (dIdx e { stageC e (snapStep (initSt r q)) with
            nextExecvnode := x }).r.resvNodes from rfl]
      rw [hfld.2.2.2.2.2.2.1]
      exact hCnd
  · intro hq
    have hD := hDch.2 (by
      rw [hCreq, hCcnt, hCidx, hCdeg]
      rw [remainingOcc] at hq
      exact hq)
    rw [hD]
    rw [(stagesEP_post e
      ({ dIdx e { stageC e (snapStep (initSt r q)) with nextExecvnode := x } with
        r := { (dIdx e { stageC e (snapStep (initSt r q)) with
          nextExecvnode := x }).r with
          execvnodesAttr :=
            some (stageC e (snapStep (initSt r q))).req.destin } })).2]
    show some (stageC e (snapStep (initSt r q))).req.destin = some q.destin
    rw [hCreq]

/-- Preservation of the giveback/node-set coupling. -/
def PresN (f : St → St) : Prop := ∀ s, NInv s → NInv (f s)

theorem presN_comp {f g : St → St} (hf : PresN f) (hg : PresN g) :
    PresN (fun s => g (f s)) := fun s h => hg _ (hf s h)

theorem ninv_of_eq {s t : St} (hp : t.purged = s.purged) (hd : t.done = s.done)
    (hg : t.r.giveback = s.r.giveback) (hn : t.r.resvNodes = s.r.resvNodes)
    (h : NInv s) : NInv t := by
  unfold NInv doneRejected at h ⊢
  rw [hp, hd, hg, hn]
  exact h

theorem ninv_rejected {t : St} {c : Nat}
    (h : t.done = some (Outcome.rejected c)) : NInv t := by
  right; left
  unfold doneRejected
  rw [h]

theorem ninv_purged {t : St} (h : t.purged = true) : NInv t := Or.inl h

theorem ninv_ack {s : St} (h : NInv s) (hd : s.done = none) : NInv (ackSt s) := by
  rcases h with h | h | h
  · exact Or.inl h
  · unfold doneRejected at h
    rw [hd] at h
    cases h
  · exact Or.inr (Or.inr h)

theorem bRetry_ninv (e : Env) : PresN (bRetry e) := by
  intro s h
  exact ninv_of_eq (bRetry_facts e s).2.2.2.2.2.2.2.2.2.2.1
    (bRetry_facts e s).2.2.2.2.2.2.2.2.2.1 (bRetry_facts e s).2.1
    (bRetry_facts e s).2.2.2.2.2.2.2.2.2.2.2 h

theorem bDenied_ninv (e : Env) : PresN (bDenied e) := by
  intro s h
  exact ninv_of_eq (bDenied_facts e s).2.2.2.2.2.2.2.2.2.2.1
    (bDenied_facts e s).2.2.2.2.2.2.2.2.2.1 (bDenied_facts e s).2.1
    (bDenied_facts e s).2.2.2.2.2.2.2.2.2.2.2 h

theorem bPurge_ninv (e : Env) : PresN (bPurge e) := by
  intro s h
  unfold bPurge
  split
  · exact h
  · split
    · exact ninv_purged rfl
    · exact h

theorem bRevert_ninv (e : Env) : PresN (bRevert e) := by
  intro s h
  exact ninv_of_eq (bRevert_facts e s).2.2.2.2.2.2.2.1
    (bRevert_facts e s).2.2.2.2.2.2.1 (bRevert_facts e s).2.1
    (bRevert_facts e s).2.2.2.2.2.2.2.2 h

theorem bFree_ninv (e : Env) : PresN (bFree e) := by
  intro s h
  exact ninv_of_eq (bFree_facts e s).2.2.2.2.2.2.2.2.2.2.1
    (bFree_facts e s).2.2.2.2.2.2.2.2.2.1 (bFree_facts e s).2.1
    (bFree_facts e s).2.2.2.2.2.2.2.2.2.2.2 h

theorem bAck_ninv (e : Env) : PresN (bAck e) := by
  intro s h
  unfold bAck
  split
  · exact h
  · split
    · exact ninv_ack h (Option.not_isSome_iff_eq_none.mp (by assumption))
    · exact h

theorem bForceExt_ninv (e : Env) : PresN (bForceExt e) := by
  intro s h
  unfold bForceExt
  split
  · exact h
  · exact ninv_of_eq rfl rfl rfl rfl h

theorem bForceStart_ninv (e : Env) : PresN (bForceStart e) := by
  intro s h
  unfold bForceStart
  split
  · exact h
  · split
    · exact ninv_of_eq rfl rfl rfl rfl h
    · exact h

theorem bForceDestin_ninv (e : Env) : PresN (bForceDestin e) := by
  intro s h
  unfold bForceDestin
  split
  · exact h
  · split
    · split
      · exact ninv_rejected rfl
      · exact ninv_of_eq rfl rfl rfl rfl h
    · exact h

theorem stageB_ninv (e : Env) : PresN (stageB e) := by
  have hc := presN_comp (presN_comp (presN_comp (presN_comp (presN_comp
    (presN_comp (presN_comp (presN_comp (bRetry_ninv e) (bDenied_ninv e))
      (bPurge_ninv e)) (bRevert_ninv e)) (bFree_ninv e)) (bAck_ninv e))
    (bForceExt_ninv e)) (bForceStart_ninv e)) (bForceDestin_ninv e)
  intro s h
  unfold stageB
  split
  · exact h
  · split
    · exact hc s h
    · exact h

theorem cFree_ninv (e : Env) : PresN (cFree e) := by
  intro s h
  unfold cFree
  split
  · exact h
  · split
    · exact ninv_of_eq rfl rfl rfl rfl h
    · exact h

theorem cStart_ninv (e : Env) : PresN (cStart e) := by
  intro s h
  unfold cStart
  split
  · exact h
  · split
    · exact ninv_of_eq rfl rfl rfl rfl h
    · exact h

theorem stageC_ninv (e : Env) : PresN (stageC e) := by
  have hc := presN_comp (cFree_ninv e) (cStart_ninv e)
  intro s h
  exact hc s h

theorem dFirst_ninv (e : Env) : PresN (dFirst e) := by
  intro s h
  unfold dFirst
  split
  · exact h
  · split
    · split
      · exact ninv_rejected rfl
      · exact h
    · split
      · exact ninv_rejected rfl
      · exact h

theorem dIdx_ninv (e : Env) : PresN (dIdx e) := by
  intro s h
  unfold dIdx
  split
  · exact h
  · split
    · exact ninv_of_eq rfl rfl rfl rfl h
    · exact h

theorem dPersist_ninv (e : Env) : PresN (dPersist e) := by
  intro s h
  unfold dPersist
  split
  · exact h
  · split
    · split
      · exact ninv_rejected rfl
      · split
        · exact ninv_of_eq rfl rfl rfl rfl h
        · exact h
    · exact h

theorem stageD_ninv (e : Env) : PresN (stageD e) := by
  have hc := presN_comp (presN_comp (dFirst_ninv e) (dIdx_ninv e)) (dPersist_ninv e)
  intro s h
  unfold stageD
  split
  · exact h
  · split
    · split
      · exact ninv_rejected rfl
      · split
        · exact ninv_rejected rfl
        · exact ninv_rejected rfl
        · rename_i x xs hxs
          exact hc { s with nextExecvnode := x } h
    · exact ninv_of_eq rfl rfl rfl rfl h

theorem stageE_ninv (e : Env) : PresN (stageE e) := by
  intro s h
  unfold stageE
  split
  · exact h
  · split
    · exact ninv_rejected rfl
    · exact h

theorem fDecr_done_eq (e : Env) (s : St) : (fDecr e s).done = s.done := by
  unfold fDecr chargeDECR
  repeat' split
  all_goals simp

theorem fFree_done_eq (e : Env) (s : St) : (fFree e s).done = s.done := by
  unfold fFree
  repeat' split
  all_goals simp

theorem stageF_done_eq (e : Env) (s : St) : (stageF e s).done = s.done := by
  unfold stageF
  exact (fFree_done_eq e _).trans (fDecr_done_eq e s)

theorem hDecr_done_eq (e : Env) (s : St) : (hDecr e s).done = s.done := by
  unfold hDecr chargeDECR
  repeat' split
  all_goals simp

theorem hFree_done_eq (e : Env) (s : St) : (hFree e s).done = s.done := by
  unfold hFree
  repeat' split
  all_goals simp

theorem stageH_done_eq (e : Env) (s : St) : (stageH e s).done = s.done := by
  unfold stageH
  exact (hFree_done_eq e _).trans (hDecr_done_eq e s)

theorem stageG_done_shape (e : Env) (s : St) :
    (stageG e s).done = s.done ∨
      (stageG e s).done = some (Outcome.rejected PBSE_SYSTEM) := by
  unfold stageG rejectSt
  split
  · exact Or.inl rfl
  · split
    · exact Or.inr rfl
    · exact Or.inl rfl

theorem iCharge_done_eq (e : Env) (s : St) : (iCharge e s).done = s.done := by
  unfold iCharge chargeINCR
  repeat' split
  all_goals simp_all

theorem iCharge_rc (e : Env) (s : St) : (iCharge e s).assignRC = s.assignRC := by
  unfold iCharge chargeINCR
  repeat' split
  all_goals simp_all

theorem iCharge_nodes (e : Env) (s : St) :
    (iCharge e s).r.resvNodes = s.r.resvNodes := by
  unfold iCharge chargeINCR
  repeat' split
  all_goals simp_all

/-- The key restoration fact: when stage I runs (no prior terminal
outcome), it either rejects the request (assignment failed, the
`set_nodes` contract demanding a nonzero error code) or leaves the
reservation with a recorded node set. -/
theorem stageI_ninv (e : Env) (t : St) (hd : t.done = none)
    (herr : e.setNodesErr ≠ 0) : NInv (stageI e t) := by
  unfold stageI iAssign
  rw [if_neg (by simp [hd])]
  unfold assign_resv_resc
  by_cases hv : t.nextExecvnode = ""
  · rw [if_pos hv]
    have hrc := iCharge_rc e { t with assignRC := PBSE_BADNODESPEC, reachedAssign := true }
    have hdq := iCharge_done_eq e { t with assignRC := PBSE_BADNODESPEC, reachedAssign := true }
    unfold iCheck
    rw [if_neg (by rw [hdq]; simp [hd]),
      if_pos (by rw [hrc]; exact (by decide : PBSE_BADNODESPEC ≠ PBSE_NONE))]
    exact ninv_rejected rfl
  · rw [if_neg hv]
    cases hsn : e.setNodes t.nextExecvnode with
    | some spec =>
      dsimp only
      have hrc := iCharge_rc e { { t with r := { t.r with resvNodes := some spec } } with
        assignRC := PBSE_NONE, reachedAssign := true }
      have hdq := iCharge_done_eq e { { t with r := { t.r with resvNodes := some spec } } with
        assignRC := PBSE_NONE, reachedAssign := true }
      have hnd := iCharge_nodes e { { t with r := { t.r with resvNodes := some spec } } with
        assignRC := PBSE_NONE, reachedAssign := true }
      unfold iCheck
      rw [if_neg (by rw [hdq]; simp [hd]),
        if_neg (by rw [hrc]; exact (by decide : ¬PBSE_NONE ≠ PBSE_NONE))]
      right; right
      intro _
      rw [hnd]
      rfl
    | none =>
      dsimp only
      have hrc := iCharge_rc e { t with assignRC := e.setNodesErr, reachedAssign := true }
      have hdq := iCharge_done_eq e { t with assignRC := e.setNodesErr, reachedAssign := true }
      unfold iCheck
      rw [if_neg (by rw [hdq]; simp [hd]), if_pos (by rw [hrc]; exact herr)]
      exact ninv_rejected rfl

theorem fghi_ninv (e : Env) (herr : e.setNodesErr ≠ 0) (s : St) (h : NInv s) :
    NInv (stageI e (stageH e (stageG e (stageF e s)))) := by
  by_cases hd : s.done = none
  · by_cases hu : (stageH e (stageG e (stageF e s))).done = none
    · exact stageI_ninv e _ hu herr
    · rcases stageG_done_shape e (stageF e s) with hg | hg
      · exfalso
        apply hu
        rw [stageH_done_eq, hg, stageF_done_eq]
        exact hd
      · have hsome : (stageH e (stageG e (stageF e s))).done.isSome := by
          rw [stageH_done_eq, hg]; rfl
        rw [stageI_done_id _ _ hsome]
        apply ninv_rejected
        rw [stageH_done_eq, hg]
  · have hsome : s.done.isSome := Option.ne_none_iff_isSome.mp hd
    rw [stageF_done_id _ _ hsome, stageG_done_id _ _ hsome,
      stageH_done_id _ _ hsome, stageI_done_id _ _ hsome]
    exact h

theorem stageJ_ninv (e : Env) : PresN (stageJ e) := by
  intro s h
  unfold stageJ
  split
  · exact h
  · split
    · split
      · exact ninv_rejected rfl
      · exact h
    · exact h

theorem stageK_ninv (e : Env) : PresN (stageK e) := by
  intro s h
  unfold stageK
  split
  · exact h
  · dsimp only
    cases hx : s.req.extend with
    | none => exact ninv_of_eq rfl rfl rfl rfl h
    | some ext =>
      cases ext
      · exact ninv_of_eq rfl rfl rfl rfl h
      · exact ninv_of_eq rfl rfl rfl rfl h
      · exact ninv_of_eq rfl rfl rfl rfl h

theorem lQueue_ninv (e : Env) : PresN (lQueue e) := by
  intro s h
  unfold lQueue
  split
  · exact h
  · split
    · split
      · split
        · exact ninv_rejected rfl
        · exact ninv_of_eq rfl rfl rfl rfl h
      · exact h
    · exact h

theorem lSave_ninv (e : Env) : PresN (lSave e) := by
  intro s h
  unfold lSave
  split
  · exact h
  · exact ninv_of_eq rfl rfl rfl rfl h

theorem mReply_ninv (e : Env) : PresN (mReply e) := by
  intro s h
  unfold mReply
  split
  · exact h
  · split
    · split
      · rcases h with h | h | h
        · apply ninv_purged
          show (s.purged || (cnvrt_qmove e).2) = true
          rw [h]
          rfl
        · exact Or.inr (Or.inl h)
        · exact Or.inr (Or.inr h)
      · exact ninv_of_eq rfl rfl rfl rfl h
    · exact h

theorem mInter_ninv (e : Env) : PresN (mInter e) := by
  intro s h
  unfold mInter
  split
  · exact h
  · exact ninv_of_eq rfl rfl rfl rfl h

theorem chargeDECR_ninv (s : St) (h : NInv s) : NInv (chargeDECR s) := by
  unfold chargeDECR
  split
  · rcases h with h | h | h
    · exact ninv_purged h
    · right; left
      unfold doneRejected at h ⊢
      exact h
    · right; right
      intro hg
      cases hg
  · exact h

theorem nDecr_ninv (e : Env) : PresN (nDecr e) := by
  intro s h
  unfold nDecr
  split
  · exact h
  · split
    · exact chargeDECR_ninv _ (ninv_of_eq rfl rfl rfl rfl h)
    · exact h

theorem nSelect_ninv (e : Env) : PresN (nSelect e) := by
  intro s h
  unfold nSelect
  split
  · exact h
  · split
    · exact ninv_of_eq rfl rfl rfl rfl h
    · exact h

theorem nClear_ninv (e : Env) : PresN (nClear e) := by
  intro s h
  unfold nClear
  split
  · exact h
  · split
    · exact ninv_of_eq rfl rfl rfl rfl h
    · exact h

theorem stageO_ninv (e : Env) : PresN (stageO e) := by
  intro s h
  unfold stageO
  split
  · exact h
  · split
    · exact ninv_of_eq rfl rfl rfl rfl h
    · exact h

theorem stageP_ninv (e : Env) : PresN (stageP e) := by
  intro s h
  unfold stageP
  split
  · exact h
  · split
    · exact ninv_ack (ninv_of_eq rfl rfl rfl rfl h)
        (Option.not_isSome_iff_eq_none.mp (by assumption))
    · exact ninv_ack h (Option.not_isSome_iff_eq_none.mp (by assumption))

theorem stageA_ninv (e : Env) : PresN (stageA e) := by
  intro s h
  unfold stageA
  split
  · exact h
  · split
    · exact ninv_rejected rfl
    · split
      · exact ninv_rejected rfl
      · split
        · exact ninv_rejected rfl
        · exact ninv_of_eq rfl rfl rfl rfl h

theorem stagesBP_ninv (e : Env) (herr : e.setNodesErr ≠ 0) (s : St)
    (h : NInv s) : NInv (stagesBP e s) := by
  have h1 := stageB_ninv e s h
  have h2 := stageC_ninv e _ h1
  have h3 := stageD_ninv e _ h2
  have h4 := stageE_ninv e _ h3
  have h5 := fghi_ninv e herr _ h4
  have h6 := stageJ_ninv e _ h5
  have h7 := stageK_ninv e _ h6
  have h8 := lQueue_ninv e _ h7
  have h9 := lSave_ninv e _ h8
  have h10 := mReply_ninv e _ h9
  have h11 := mInter_ninv e _ h10
  have h12 := nDecr_ninv e _ h11
  have h13 := nSelect_ninv e _ h12
  have h14 := nClear_ninv e _ h13
  have h15 := stageO_ninv e _ h14
  exact stageP_ninv e _ h15

/-- Claim C5 witness: a standing reservation with three occurrences left
(count 3, index reset to 1) confirmed with a two-occurrence execvnode
string is rejected with PBSE_BADATVAL, the assignment engine is not
reached and the old attributes survive; the same reservation confirmed
with a three-occurrence string gets the full sequence persisted. -/
theorem claim_C5_witness :
    ((req_confirmresv eAssignOk rStanding qTwoOcc).done =
        some (Outcome.rejected PBSE_BADATVAL) ∧
      (req_confirmresv eAssignOk rStanding qTwoOcc).reachedAssign = false ∧
      (req_confirmresv eAssignOk rStanding qTwoOcc).r.execvnodesAttr =
        rStanding.execvnodesAttr ∧
      (req_confirmresv eAssignOk rStanding qTwoOcc).r.resvNodes =
        rStanding.resvNodes) ∧
    (req_confirmresv eAssignOk rStanding qThreeOcc).r.execvnodesAttr =
      some qThreeOcc.destin := by
  constructor
  · exact (claim_C5 eAssignOk rStanding qTwoOcc (Ext.confirmSuccess none) rfl rfl
      rfl (by decide) rfl rfl (by decide) ⟨"(a:ncpus=1)", ["(b:ncpus=1)"], by rfl⟩
      (Or.inr rfl)).1 (by decide)
  · exact (claim_C5 eAssignOk rStanding qThreeOcc (Ext.confirmSuccess none) rfl rfl
      rfl (by decide) rfl rfl (by decide)
      ⟨"(a:ncpus=1)", ["(b:ncpus=1)", "(c:ncpus=1)"], by rfl⟩
      (Or.inr rfl)).2 (by decide)

/-- Claim C6 witness: denying a DEGRADED non-altering reservation whose
start is 1000 seconds away arms a retry at now + 500 (the midpoint),
leaves state CONFIRMED / substate DEGRADED, purges nothing and sends no
client reply. -/
theorem claim_C6_witness :
    (req_confirmresv eAssignOk rDegFar qDeny).r.retry =
      some (determine_resv_retry eAssignOk.now rDegFar.stime) ∧
    (req_confirmresv eAssignOk rDegFar qDeny).r.state = rDegFar.state ∧
    (req_confirmresv eAssignOk rDegFar qDeny).r.substate = rDegFar.substate ∧
    (req_confirmresv eAssignOk rDegFar qDeny).purged = false ∧
    (req_confirmresv eAssignOk rDegFar qDeny).clientReplied = none ∧
    (req_confirmresv eAssignOk rDegFar qDeny).done = some Outcome.acked ∧
    determine_resv_retry eAssignOk.now rDegFar.stime = eAssignOk.now + 500 := by
  refine ⟨(claim_C6 eAssignOk rDegFar qDeny rfl rfl rfl (Or.inl rfl) rfl
    (by decide)).1, (claim_C6 eAssignOk rDegFar qDeny rfl rfl rfl (Or.inl rfl) rfl
    (by decide)).2.1, (claim_C6 eAssignOk rDegFar qDeny rfl rfl rfl (Or.inl rfl) rfl
    (by decide)).2.2.1, (claim_C6 eAssignOk rDegFar qDeny rfl rfl rfl (Or.inl rfl) rfl
    (by decide)).2.2.2.1, (claim_C6 eAssignOk rDegFar qDeny rfl rfl rfl (Or.inl rfl) rfl
    (by decide)).2.2.2.2.1, (claim_C6 eAssignOk rDegFar qDeny rfl rfl rfl (Or.inl rfl) rfl
    (by decide)).2.2.2.2.2, by decide⟩

/-- Claim C1, counterexample to the claim as stated: confirming the
degraded running reservation `rDegRun` (resources charged, one node held)
in an environment where node placement fails (`eAssignFail`) runs the
line-780 charge block before the line-788 failure check, so the handler
rejects the request while leaving `giveback = 1` with the node-set
attribute already freed — the flag is true with an empty node set, which
the claim says never happens, even though the increment/decrement trace
itself still alternates. -/
theorem claim_C1_counterexample :
    (req_confirmresv eAssignFail rDegRun qConf).r.giveback = true ∧
    (req_confirmresv eAssignFail rDegRun qConf).r.resvNodes = none ∧
    (req_confirmresv eAssignFail rDegRun qConf).purged = false ∧
    (req_confirmresv eAssignFail rDegRun qConf).events = [Ev.DECR, Ev.INCR] ∧
    (req_confirmresv eAssignFail rDegRun qConf).done =
      some (Outcome.rejected eAssignFail.setNodesErr) :=
  ⟨rfl, rfl, rfl, rfl, rfl⟩

/-- Claim C1 (amended): over any confirmation run, the INCR/DECR trace
for the reservation strictly alternates starting from the entry charge
parity and the final giveback flag equals the parity after the trace; and
the giveback-implies-nonempty-node-set coupling is an invariant of every
run that does not end in a rejection (assuming it holds at entry and the
placement error code is nonzero) — but not of the assign-failure
rejection path, per the counterexample. -/
theorem claim_C1 (e : Env) (r : Resv) (q : Req)
    (herr : e.setNodesErr ≠ 0)
    (h0 : r.giveback = true → r.resvNodes.isSome = true) :
    altOk r.giveback (req_confirmresv e r q).events = true ∧
    gbAfter r.giveback (req_confirmresv e r q).events =
      (req_confirmresv e r q).r.giveback ∧
    ((req_confirmresv e r q).purged = false →
      doneRejected (req_confirmresv e r q) = false →
      (req_confirmresv e r q).r.giveback = true →
      (req_confirmresv e r q).r.resvNodes.isSome = true) := by
  have hcoh0 : Coh r.giveback (initSt r q) := ⟨rfl, rfl⟩
  have hcohA : Coh r.giveback (stageA e (initSt r q)) :=
    coh_of_eq (stageA_facts e (initSt r q)).1 (stageA_facts e (initSt r q)).2.1
      hcoh0
  have hcoh : Coh r.giveback (stagesBP e (stageA e (initSt r q))) :=
    (stagesBP_presW e).coh r.giveback _ hcohA
  have hninv0 : NInv (initSt r q) := Or.inr (Or.inr h0)
  have hninvA : NInv (stageA e (initSt r q)) := stageA_ninv e _ hninv0
  have hninv : NInv (stagesBP e (stageA e (initSt r q))) :=
    stagesBP_ninv e herr _ hninvA
  rw [req_confirmresv_eq]
  refine ⟨hcoh.1, hcoh.2, ?_⟩
  intro hp hd hg
  rcases hninv with h | h | h
  · rw [hp] at h; cases h
  · rw [hd] at h; cases h
  · exact h hg

/-- Claim C1 witness: the amended statement applied to the successful
confirmation of the same degraded running reservation. -/
theorem claim_C1_witness :
    altOk rDegRun.giveback (req_confirmresv eAssignOk rDegRun qConf).events
        = true ∧
    gbAfter rDegRun.giveback (req_confirmresv eAssignOk rDegRun qConf).events =
      (req_confirmresv eAssignOk rDegRun qConf).r.giveback ∧
    ((req_confirmresv eAssignOk rDegRun qConf).purged = false →
      doneRejected (req_confirmresv eAssignOk rDegRun qConf) = false →
      (req_confirmresv eAssignOk rDegRun qConf).r.giveback = true →
      (req_confirmresv eAssignOk rDegRun qConf).r.resvNodes.isSome = true) :=
  claim_C1 eAssignOk rDegRun qConf (by decide) (by decide)

theorem iAssign_facts (e : Env) (s : St) :
    (iAssign e s).done = s.done ∧
    (iAssign e s).r.stime = s.r.stime ∧
    (iAssign e s).lDeg = s.lDeg ∧
    (iAssign e s).lAlt = s.lAlt ∧
    (iAssign e s).r.giveback = s.r.giveback ∧
    (iAssign e s).events = s.events := by
  unfold iAssign assign_resv_resc
  split
  · simp
  · split
    · simp
    · cases hx : e.setNodes s.nextExecvnode <;> simp [hx]

theorem iCheck_facts (e : Env) (s : St) :
    (iCheck e s).events = s.events ∧ (iCheck e s).r.giveback = s.r.giveback := by
  unfold iCheck
  split
  · exact ⟨rfl, rfl⟩
  · split
    · exact ⟨rfl, rfl⟩
    · exact ⟨rfl, rfl⟩

theorem iCharge_events (e : Env) (u : St) :
    (iCharge e u).events =
      if u.done = none ∧ u.r.stime < e.now ∧
          (u.lDeg = true ∨ u.lAlt.selMod = true) ∧ u.r.giveback = false
        then u.events ++ [Ev.INCR] else u.events := by
  unfold iCharge chargeINCR
  by_cases hd : u.done = none
  · rw [if_neg (show ¬u.done.isSome = true from by rw [hd]; simp)]
    by_cases hst : u.r.stime < e.now
    · by_cases hsel : u.lDeg = true ∨ u.lAlt.selMod = true
      · rw [if_pos (show (decide (u.r.stime < e.now) &&
          (u.lDeg || u.lAlt.selMod)) = true from by
            rcases hsel with h | h <;> simp [hst, h])]
        by_cases hgb : u.r.giveback = true
        · rw [if_pos (show ({u with gbAtCharge := some u.r.giveback} : St).r.giveback
            = true from hgb)]
          rw [if_neg (show ¬_ from by
            rintro ⟨-, -, -, h⟩; rw [hgb] at h; cases h)]
        · rw [if_neg (show ¬({u with gbAtCharge := some u.r.giveback} : St).r.giveback
            = true from hgb)]
          have hgb' : u.r.giveback = false := by
            revert hgb; cases u.r.giveback <;> simp
          rw [if_pos ⟨hd, hst, hsel, hgb'⟩]
      · rw [if_neg (show ¬(decide (u.r.stime < e.now) &&
          (u.lDeg || u.lAlt.selMod)) = true from by
            simp only [Bool.and_eq_true, Bool.or_eq_true, decide_eq_true_eq]
            rintro ⟨-, h | h⟩ <;> exact hsel (by simp [h]))]
        rw [if_neg (show ¬_ from by rintro ⟨-, -, h, -⟩; exact hsel h)]
    · rw [if_neg (show ¬(decide (u.r.stime < e.now) &&
        (u.lDeg || u.lAlt.selMod)) = true from by
          simp only [Bool.and_eq_true, decide_eq_true_eq]
          rintro ⟨h, -⟩; exact hst h)]
      rw [if_neg (show ¬_ from by rintro ⟨-, h, -⟩; exact hst h)]
  · rw [if_pos (Option.ne_none_iff_isSome.mp hd)]
    rw [if_neg (show ¬_ from by rintro ⟨h, -⟩; exact hd h)]

theorem iCharge_giveback (e : Env) (u : St) (hd : u.done = none)
    (hst : u.r.stime < e.now) (hsel : u.lDeg = true ∨ u.lAlt.selMod = true) :
    (iCharge e u).r.giveback = true := by
  unfold iCharge chargeINCR
  rw [if_neg (show ¬u.done.isSome = true from by rw [hd]; simp)]
  rw [if_pos (show (decide (u.r.stime < e.now) &&
    (u.lDeg || u.lAlt.selMod)) = true from by
      rcases hsel with h | h <;> simp [hst, h])]
  by_cases hgb : u.r.giveback = true
  · rw [if_pos (show ({u with gbAtCharge := some u.r.giveback} : St).r.giveback
      = true from hgb)]
    exact hgb
  · rw [if_neg (show ¬({u with gbAtCharge := some u.r.giveback} : St).r.giveback
      = true from hgb)]

theorem chargePoint_no_incr (e : Env) (r : Resv) (q : Req) :
    Ev.INCR ∉ (chargePoint e r q).events := by
  intro hm
  unfold chargePoint at hm
  have h1 := ((stageH_pres e).incr _).mp hm
  have h2 := ((stageG_pres e).incr _).mp h1
  have h3 := ((stageF_pres e).incr _).mp h2
  have h4 := ((stageE_pres e).incr _).mp h3
  have h5 := ((stageD_pres e).incr _).mp h4
  have h6 := ((stageC_pres e).incr _).mp h5
  have h7 := ((stageB_pres e).incr _).mp h6
  rw [(stageA_facts e (initSt r q)).1] at h7
  simp [initSt] at h7

/-- Claim C4, counterexample to the claim as stated: the line-780 guard is
`ri_stime < time_now`, strictly.  A degraded reservation whose start time
equals the current time — "at or before now" in the claim's words — is
confirmed successfully with no counter increment and giveback left
false. -/
theorem claim_C4_counterexample :
    rDegBoundary.stime = eAssignOk.now ∧
    rDegBoundary.substate = RST.DEGRADED ∧
    (req_confirmresv eAssignOk rDegBoundary qConf).done = some Outcome.acked ∧
    (req_confirmresv eAssignOk rDegBoundary qConf).events = [] ∧
    (req_confirmresv eAssignOk rDegBoundary qConf).r.giveback = false :=
  ⟨rfl, rfl, rfl, rfl, rfl⟩

/-- Claim C4 (amended): an increment occurs during confirmation exactly
when, at the line-780 charge decision (state `chargePoint`), the run is
still live, the start time is strictly before now, the entry snapshot was
degraded or a select-modifying alteration, and resources are not already
charged; and whenever the first three of those hold, the reservation
leaves the charge block with giveback true. -/
theorem claim_C4 (e : Env) (r : Resv) (q : Req) :
    (Ev.INCR ∈ (req_confirmresv e r q).events ↔
      ((chargePoint e r q).done = none ∧
        (chargePoint e r q).r.stime < e.now ∧
        ((chargePoint e r q).lDeg = true ∨
          (chargePoint e r q).lAlt.selMod = true) ∧
        (chargePoint e r q).r.giveback = false)) ∧
    ((chargePoint e r q).done = none →
      (chargePoint e r q).r.stime < e.now →
      ((chargePoint e r q).lDeg = true ∨
        (chargePoint e r q).lAlt.selMod = true) →
      (stageI e (chargePoint e r q)).r.giveback = true) := by
  have hA := iAssign_facts e (chargePoint e r q)
  have hni := chargePoint_no_incr e r q
  constructor
  · rw [show req_confirmresv e r q
      = stagesJP e (stageI e (chargePoint e r q)) from rfl]
    rw [(stagesJP_pres e).incr]
    unfold stageI
    rw [(iCheck_facts e (iCharge e (iAssign e (chargePoint e r q)))).1,
      iCharge_events, hA.1, hA.2.1, hA.2.2.1, hA.2.2.2.1, hA.2.2.2.2.1,
      hA.2.2.2.2.2]
    by_cases hP : (chargePoint e r q).done = none ∧
        (chargePoint e r q).r.stime < e.now ∧
        ((chargePoint e r q).lDeg = true ∨
          (chargePoint e r q).lAlt.selMod = true) ∧
        (chargePoint e r q).r.giveback = false
    · rw [if_pos hP]
      simp [hP]
    · rw [if_neg hP]
      exact ⟨fun hm => absurd hm hni, fun hp => absurd hp hP⟩
  · intro hd hst hsel
    show (iCheck e (iCharge e (iAssign e (chargePoint e r q)))).r.giveback = true
    rw [(iCheck_facts e (iCharge e (iAssign e (chargePoint e r q)))).2]
    refine iCharge_giveback e _ ?_ ?_ ?_
    · rw [hA.1]; exact hd
    · rw [hA.2.1]; exact hst
    · rcases hsel with h | h
      · left; rw [hA.2.2.1]; exact h
      · right; rw [hA.2.2.2.1]; exact h

/-- Claim C4 witness: the amended statement at the degraded running
reservation (start 50, now 100): the increment fires and the charge block
leaves giveback true. -/
theorem claim_C4_witness :
    Ev.INCR ∈ (req_confirmresv eAssignOk rDegRun qConf).events ∧
    (stageI eAssignOk (chargePoint eAssignOk rDegRun qConf)).r.giveback = true :=
  ⟨(claim_C4 eAssignOk rDegRun qConf).1.mpr ⟨rfl, by decide, Or.inl rfl, rfl⟩,
   (claim_C4 eAssignOk rDegRun qConf).2 rfl (by decide) (Or.inl rfl)⟩

end Rescq
